import Mathlib

/-!
TradingBOT: indicator engine, signal scorer and position lifecycle.

A shallow embedding of `src/tradingbot_v1.js` (the enhanced script).

Numbers: a JavaScript number is modelled as a rational (`ℚ`) and the
arithmetic is exact.  Every finite double is a rational, so every input the
script can receive is covered; rounding, `NaN` and the infinities are not
modelled.  `Math.sqrt` has no rational counterpart and is a parameter
(`mathSqrt`) of the functions that call it.

Arrays are lists.  A property read on `undefined` (a `TypeError` in the
script) is `none` in the functions that can reach one.

The exchange is an argument: each operation of the position lifecycle takes
the answers it would receive (`OrderReply`, `StatusReply`, `ExitEnv`) and
maps a `TradingStatus` to the next one.  Clock readings, log lines,
notifications and the status file are left out.
-/

namespace TradingBot

/-! ## Data model -/

/-- One kline as built by `getHistoricalData` (lines 558-565). -/
structure Candle where
  timestamp : Int
  openPrice : ℚ
  high : ℚ
  low : ℚ
  close : ℚ
  volume : ℚ
  deriving DecidableEq, Repr

/-! ## Array helpers -/

/-- `Array.prototype.slice(start)`: a negative start counts from the end. -/
def slice1 {α : Type} (l : List α) (start : Int) : List α :=
  let n : Int := l.length
  let s : Int := if start < 0 then max (n + start) 0 else min start n
  l.drop s.toNat

/-- `Array.prototype.slice(start, stop)`: negative bounds count from the end. -/
def slice2 {α : Type} (l : List α) (start stop : Int) : List α :=
  let n : Int := l.length
  let s : Int := if start < 0 then max (n + start) 0 else min start n
  let e : Int := if stop < 0 then max (n + stop) 0 else min stop n
  (l.drop s.toNat).take (e - s).toNat

/-- `xs.reduce((a, b) => a + b, 0)`. -/
def jsSum (xs : List ℚ) : ℚ :=
  xs.foldl (fun a b => a + b) 0

/-- `Math.max(...xs)` on a non-empty array (on an empty one the script gets
`-Infinity`, which is not reached with a positive period). -/
def mathMax : List ℚ → ℚ
  | [] => 0
  | x :: xs => xs.foldl max x

/-- `Math.min(...xs)` on a non-empty array (on an empty one the script gets
`Infinity`, which is not reached with a positive period). -/
def mathMin : List ℚ → ℚ
  | [] => 0
  | x :: xs => xs.foldl min x

/-- The read `data[i].close` at an index that is in range. -/
def closeAt (data : List Candle) (i : Nat) : ℚ :=
  match data.get? i with
  | some c => c.close
  | none => 0

/-- The read `data[data.length - 1].close`; `none` is the `TypeError` of the
script on an empty array. -/
def lastClose (data : List Candle) : Option ℚ :=
  data.getLast?.map (fun c => c.close)

/-! ## technicalIndicators (lines 573-777) -/

/-- One pass of the loop body of `calculateRSI` (lines 584-589) on the pair
`(gains, losses)`. -/
def rsiStep (data : List Candle) (acc : ℚ × ℚ) (i : Nat) : ℚ × ℚ :=
  let change := closeAt data i - closeAt data (i - 1)
  if change ≥ 0 then (acc.1 + change, acc.2) else (acc.1, acc.2 - change)

/-- The pair `(gains, losses)` after the loop of `calculateRSI`
(`i` from `data.length - period` up to `data.length - 1`). -/
def rsiGainsLosses (data : List Candle) (period : Nat) : ℚ × ℚ :=
  (List.range' (data.length - period) period).foldl (rsiStep data) (0, 0)

/-- `technicalIndicators.calculateRSI` (lines 575-596). -/
def calculateRSI (data : List Candle) (period : Nat) : ℚ :=
  if data.length < period + 1 then 50
  else
    let gl := rsiGainsLosses data period
    if gl.2 = 0 then 100
    else
      let rs := gl.1 / gl.2
      100 - 100 / (1 + rs)

/-- `technicalIndicators.calculateSMA` (lines 599-610). -/
def calculateSMA (data : List Candle) (period : Nat) : Option ℚ :=
  if data.length < period then lastClose data
  else
    let sum := (List.range' (data.length - period) period).foldl
      (fun s i => s + closeAt data i) 0
    some (sum / period)

/-- The local `calculateEMA` of `calculateMACD` (lines 645-654), on an array
of prices: SMA of the first `period` prices, then
`ema = prices[i] * k + ema * (1 - k)` for `i` from `period`. -/
def calculateMACD.calculateEMA (prices : List ℚ) (period : Nat) : ℚ :=
  let k : ℚ := 2 / ((period : ℚ) + 1)
  let ema : ℚ := jsSum (slice2 prices 0 period) / period
  (prices.drop period).foldl (fun ema p => p * k + ema * (1 - k)) ema

/-- `technicalIndicators.calculateEMA` (lines 613-630). -/
def calculateEMA (data : List Candle) (period : Nat) : Option ℚ :=
  if data.length < period then lastClose data
  else
    let prices := data.map (fun d => d.close)
    let k : ℚ := 2 / ((period : ℚ) + 1)
    let ema : ℚ := jsSum (slice2 prices 0 period) / period
    some ((prices.drop period).foldl (fun ema p => p * k + ema * (1 - k)) ema)

/-- Result of `calculateMACD`. -/
structure MACD where
  macd : ℚ
  signal : ℚ
  histogram : ℚ
  previousHistogram : ℚ
  deriving DecidableEq, Repr

/-- The array `macdValues` built by the loop of lines 662-667. -/
def macdValues (prices : List ℚ) : List ℚ :=
  (List.range (prices.length - 26 + 1)).map fun (i : Nat) =>
    calculateMACD.calculateEMA (slice2 prices 0 (26 + (i : Int))) 12
      - calculateMACD.calculateEMA (slice2 prices 0 (26 + (i : Int))) 26

/-- `technicalIndicators.calculateMACD` (lines 633-681). -/
def calculateMACD (data : List Candle) : MACD :=
  if data.length < 26 then ⟨0, 0, 0, 0⟩
  else
    let prices := data.map (fun d => d.close)
    let shortEMA := calculateMACD.calculateEMA prices 12
    let longEMA := calculateMACD.calculateEMA prices 26
    let macd := shortEMA - longEMA
    let mv := macdValues prices
    let signal := calculateMACD.calculateEMA mv 9
    let histogram := macd - signal
    let previousHistogram :=
      if mv.length ≥ 2 then
        mv.getD (mv.length - 2) 0 - calculateMACD.calculateEMA (slice2 mv 0 (-1)) 9
      else 0
    ⟨macd, signal, histogram, previousHistogram⟩

/-- The `trend` strings of `analyzeVolume`. -/
inductive VolumeTrend where
  | neutral
  | increasing
  | decreasing
  deriving DecidableEq, Repr

/-- Result of `analyzeVolume`. -/
structure VolumeAnalysis where
  trend : VolumeTrend
  changePercent : ℚ
  deriving DecidableEq, Repr

/-- `technicalIndicators.analyzeVolume` (lines 684-698). -/
def analyzeVolume (data : List Candle) : VolumeAnalysis :=
  if data.length < 10 then ⟨VolumeTrend.neutral, 0⟩
  else
    let recentVolumes := (slice1 data (-5)).map (fun d => d.volume)
    let avgRecentVolume := jsSum recentVolumes / recentVolumes.length
    let prevVolumes := (slice2 data (-10) (-5)).map (fun d => d.volume)
    let avgPrevVolume := jsSum prevVolumes / prevVolumes.length
    ⟨if avgRecentVolume > avgPrevVolume then VolumeTrend.increasing
      else VolumeTrend.decreasing,
     ((avgRecentVolume - avgPrevVolume) / avgPrevVolume) * 100⟩

/-- Result of `calculateBollingerBands`. -/
structure BollingerBands where
  upper : ℚ
  middle : ℚ
  lower : ℚ
  deriving DecidableEq, Repr

/-- `technicalIndicators.calculateBollingerBands` (lines 701-718);
`mathSqrt` stands for `Math.sqrt`. -/
def calculateBollingerBands (mathSqrt : ℚ → ℚ) (data : List Candle)
    (period : Nat) (multiplier : ℚ) : BollingerBands :=
  if data.length < period then ⟨0, 0, 0⟩
  else
    let prices := (slice1 data (-(period : Int))).map (fun d => d.close)
    let sma := jsSum prices / period
    let squaredDifferences := prices.map (fun price => (price - sma) ^ 2)
    let variance := jsSum squaredDifferences / period
    let standardDeviation := mathSqrt variance
    ⟨sma + standardDeviation * multiplier, sma, sma - standardDeviation * multiplier⟩

/-- Result of `calculateStochastic`. -/
structure Stochastic where
  k : ℚ
  d : ℚ
  deriving DecidableEq, Repr

/-- The local `getHighLow` of `calculateStochastic` (lines 727-732). -/
def calculateStochastic.getHighLow (data : List Candle) (period : Nat) : ℚ × ℚ :=
  let slice := slice1 data (-(period : Int))
  let high := mathMax (slice.map (fun d => d.high))
  let low := mathMin (slice.map (fun d => d.low))
  (high, low)

/-- The value pushed on `kValues` at pass `i` of the loop of lines 746-759.
In the first branch `dataSlice` has more than `period` elements, so the read
of its last close is in range. -/
def calculateStochastic.kValue (data : List Candle) (period i : Nat) : ℚ :=
  if data.length > period + i then
    let dataSlice := slice2 data 0 ((data.length : Int) - (i : Int))
    let hl := calculateStochastic.getHighLow dataSlice period
    let closeValue := closeAt dataSlice (dataSlice.length - 1)
    if hl.1 ≠ hl.2 then ((closeValue - hl.2) / (hl.1 - hl.2)) * 100 else 50
  else 50

/-- `technicalIndicators.calculateStochastic` (lines 721-776).  `none` is the
`TypeError` of `data[data.length - 1].close` on an empty array (reachable
with `period = 0` only).  The script's `kRaw` (line 742) is computed and
never read, so it does not appear. -/
def calculateStochastic (data : List Candle) (period smoothK smoothD : Nat) :
    Option Stochastic :=
  if data.length < period then some ⟨50, 50⟩
  else
    let hl := calculateStochastic.getHighLow data period
    (lastClose data).map fun _close =>
      if hl.1 = hl.2 then ⟨50, 50⟩
      else
        let kValues := (List.range smoothK).map (calculateStochastic.kValue data period)
        let k := jsSum kValues / kValues.length
        let dValues := (List.range smoothD).map fun i =>
          if kValues.length > i then kValues.getD i 0 else 50
        let d := jsSum dValues / dValues.length
        ⟨k, d⟩

/-! ## predictPriceMovement (lines 780-866) -/

/-- The `prediction` strings. -/
inductive Prediction where
  | BUY
  | SELL
  | HOLD
  deriving DecidableEq, Repr

/-- The fields of `config` read by `predictPriceMovement` (lines 409-410). -/
structure Config where
  takeProfitPercentage : ℚ
  stopLossPercentage : ℚ
  deriving DecidableEq, Repr

/-- The defaults of lines 409-410 (environment variables unset). -/
def defaultConfig : Config :=
  { takeProfitPercentage := 2.5, stopLossPercentage := 1.5 }

/-- The indicator values computed at lines 786-795. -/
structure Snapshot where
  rsi : ℚ
  sma : ℚ
  ema9 : ℚ
  ema21 : ℚ
  macd : MACD
  volume : VolumeAnalysis
  bollingerBands : BollingerBands
  stochastic : Stochastic
  currentPrice : ℚ
  deriving DecidableEq, Repr

/-- The three accumulators of lines 798-800. -/
structure Scores where
  bullishScore : ℚ
  bearishScore : ℚ
  totalWeight : ℚ
  deriving DecidableEq, Repr

/-- One evidence row: `totalWeight += w; if (bull) bullishScore += w;
else if (bear) bearishScore += w;`. -/
def applyRow (w : ℚ) (bull bear : Prop) [Decidable bull] [Decidable bear]
    (sc : Scores) : Scores :=
  let sc : Scores := { sc with totalWeight := sc.totalWeight + w }
  if bull then { sc with bullishScore := sc.bullishScore + w }
  else if bear then { sc with bearishScore := sc.bearishScore + w }
  else sc

/-- The scoring of lines 797-830: the six rows in the script's order. -/
def scoreRows (s : Snapshot) : Scores :=
  let sc : Scores := ⟨0, 0, 0⟩
  -- RSI (weight: 2)
  let sc := applyRow 2 (s.rsi < 30) (s.rsi > 70) sc
  -- EMA Cross (weight: 3)
  let sc := applyRow 3 (s.ema9 > s.ema21) (s.ema9 < s.ema21) sc
  -- MACD (weight: 2.5)
  let sc := applyRow 2.5
    (s.macd.histogram > 0 ∧ s.macd.histogram > s.macd.previousHistogram)
    (s.macd.histogram < 0 ∧ s.macd.histogram < s.macd.previousHistogram) sc
  -- Volume (weight: 1.5)
  let sc := applyRow 1.5
    (s.volume.trend = VolumeTrend.increasing ∧ s.currentPrice > s.sma)
    (s.volume.trend = VolumeTrend.increasing ∧ s.currentPrice < s.sma) sc
  -- Bollinger Bands (weight: 2)
  let sc := applyRow 2 (s.currentPrice < s.bollingerBands.lower)
    (s.currentPrice > s.bollingerBands.upper) sc
  -- Stochastic (weight: 2)
  let sc := applyRow 2 (s.stochastic.k < 20 ∧ s.stochastic.k > s.stochastic.d)
    (s.stochastic.k > 80 ∧ s.stochastic.k < s.stochastic.d) sc
  sc

/-- Lines 832-842: `(prediction, confidence)` from the accumulators. -/
def decision (sc : Scores) : Prediction × ℚ :=
  if sc.bullishScore > sc.bearishScore then
    (Prediction.BUY, (sc.bullishScore / sc.totalWeight) * 100)
  else if sc.bearishScore > sc.bullishScore then
    (Prediction.SELL, (sc.bearishScore / sc.totalWeight) * 100)
  else (Prediction.HOLD, 0)

/-- The `trend` string of the reported MACD (line 857). -/
inductive MacdTrend where
  | bullish
  | bearish
  deriving DecidableEq, Repr

/-- The `indicators.macd` object of lines 853-858. -/
structure MacdReport where
  value : ℚ
  signal : ℚ
  histogram : ℚ
  trend : MacdTrend
  deriving DecidableEq, Repr

/-- The `indicators` object of lines 849-862. -/
structure Indicators where
  rsi : ℚ
  sma : ℚ
  ema : ℚ × ℚ
  macd : MacdReport
  volume : VolumeTrend
  bollingerBands : BollingerBands
  stochastic : Stochastic
  deriving DecidableEq, Repr

/-- The fields that only the full result object (lines 844-865) has;
`none` in the two price fields is the script's `null`. -/
structure SignalDetail where
  symbol : String
  currentPrice : ℚ
  indicators : Indicators
  takeProfitPrice : Option ℚ
  stopLossPrice : Option ℚ
  deriving DecidableEq, Repr

/-- The object returned by `predictPriceMovement`: `detail = none` is the
two-field object of the early return (line 782). -/
structure Signal where
  prediction : Prediction
  confidence : ℚ
  detail : Option SignalDetail
  deriving DecidableEq, Repr

/-- Lines 786-795: every indicator on the same candles.  `none` is a
`TypeError` raised by one of the indicator routines. -/
def snapshot (mathSqrt : ℚ → ℚ) (historicalData : List Candle) : Option Snapshot :=
  let rsi := calculateRSI historicalData 14
  (calculateSMA historicalData 20).bind fun sma =>
  (calculateEMA historicalData 9).bind fun ema9 =>
  (calculateEMA historicalData 21).bind fun ema21 =>
  let macd := calculateMACD historicalData
  let volume := analyzeVolume historicalData
  let bollingerBands := calculateBollingerBands mathSqrt historicalData 20 2
  (calculateStochastic historicalData 14 3 3).bind fun stochastic =>
  (lastClose historicalData).map fun currentPrice =>
  { rsi := rsi, sma := sma, ema9 := ema9, ema21 := ema21, macd := macd,
    volume := volume, bollingerBands := bollingerBands,
    stochastic := stochastic, currentPrice := currentPrice }

/-- Lines 844-865: the result object built from the snapshot. -/
def buildSignal (config : Config) (symbol : String) (s : Snapshot) : Signal :=
  let pc := decision (scoreRows s)
  let prediction := pc.1
  let confidence := pc.2
  { prediction := prediction
    confidence := confidence
    detail := some
      { symbol := symbol
        currentPrice := s.currentPrice
        indicators :=
          { rsi := s.rsi
            sma := s.sma
            ema := (s.ema9, s.ema21)
            macd :=
              { value := s.macd.macd
                signal := s.macd.signal
                histogram := s.macd.histogram
                trend := if s.macd.histogram > 0 then MacdTrend.bullish
                  else MacdTrend.bearish }
            volume := s.volume.trend
            bollingerBands := s.bollingerBands
            stochastic := s.stochastic }
        takeProfitPrice :=
          if prediction = Prediction.BUY then
            some (s.currentPrice * (1 + config.takeProfitPercentage / 100))
          else none
        stopLossPrice :=
          if prediction = Prediction.BUY then
            some (s.currentPrice * (1 - config.stopLossPercentage / 100))
          else none } }

/-- `predictPriceMovement(symbol, historicalData)` (lines 780-866).  The
argument `none` is a missing (`null`/`undefined`) `historicalData`; the
result `none` is a `TypeError`. -/
def predictPriceMovement (mathSqrt : ℚ → ℚ) (config : Config) (symbol : String)
    (historicalData : Option (List Candle)) : Option Signal :=
  match historicalData with
  | none => some ⟨Prediction.HOLD, 0, none⟩
  | some data =>
    if data.length < 30 then some ⟨Prediction.HOLD, 0, none⟩
    else (snapshot mathSqrt data).map (buildSignal config symbol)

/-- The default `limit` of `getHistoricalData` (line 549). -/
def getHistoricalData.defaultLimit : Nat := 24

/-! ## Position lifecycle (lines 484-503 and 946-1170) -/

/-- The `side` strings of an order. -/
inductive Side where
  | BUY
  | SELL
  deriving DecidableEq, Repr

/-- The `status` strings of an order. -/
inductive OrderStatus where
  | ACTIVE
  | COMPLETED
  deriving DecidableEq, Repr

/-- The order object built at lines 968-978.  The two clock readings
(`timestamp`, `filledTime`) are left out. -/
structure Order where
  id : Nat
  symbol : String
  side : Side
  quantity : ℚ
  price : ℚ
  status : OrderStatus
  takeProfitPrice : Option ℚ
  stopLossPrice : Option ℚ
  deriving DecidableEq, Repr

/-- The `performance` object of lines 488-493. -/
structure Performance where
  totalTrades : Nat
  profitableTrades : Nat
  totalProfitLoss : ℚ
  winRate : ℚ
  deriving DecidableEq, Repr

/-- The `balance` object: asset name to amount.  `none` stands for a missing
entry and for `NaN`; the script treats the two alike (`x || 0` is `0` and
`x -= v`, `x += v` leave `NaN`). -/
abbrev Ledger := String → Option ℚ

/-- The assignment `balance[asset] = value`. -/
def Ledger.set (balance : Ledger) (asset : String) (value : Option ℚ) : Ledger :=
  fun a => if a = asset then value else balance a

/-- The object `tradingStatus` of lines 484-495. -/
structure TradingStatus where
  activeOrders : List Order
  completedOrders : List Order
  balance : Ledger
  performance : Performance
  lastPerformanceReport : Nat

/-- The initial `tradingStatus` (lines 484-495) over a given initial
balance. -/
def initialStatus (initialBalance : Ledger) : TradingStatus :=
  { activeOrders := []
    completedOrders := []
    balance := initialBalance
    performance :=
      { totalTrades := 0, profitableTrades := 0, totalProfitLoss := 0, winRate := 0 }
    lastPerformanceReport := 0 }

/-- The default `INITIAL_BALANCE` of line 424. -/
def defaultInitialBalance : Ledger :=
  fun a => if a = "BNB" then some 1 else if a = "USDT" then some 1000 else none

/-- `limitArraySize(array, maxSize)` (lines 498-503). -/
def limitArraySize {α : Type} (array : List α) (maxSize : Nat) : List α :=
  if array.length > maxSize then slice1 array ((array.length : Int) - (maxSize : Int))
  else array

/-- Removal of the first occurrence of `pat` in a list of characters. -/
def removeFirst (pat : List Char) : List Char → List Char
  | [] => []
  | c :: cs =>
    if (c :: cs).take pat.length = pat then (c :: cs).drop pat.length
    else c :: removeFirst pat cs

/-- `s.replace(pat, '')`: the first occurrence of `pat` is removed. -/
def jsReplaceEmpty (s pat : String) : String :=
  ⟨removeFirst pat.data s.data⟩

/-- The pair `[baseAsset, quoteAsset]` of lines 1023-1025. -/
def baseQuote (symbol : String) : String × String :=
  if (jsReplaceEmpty symbol "BNB").length > 0 then (jsReplaceEmpty symbol "BNB", "BNB")
  else ("BNB", jsReplaceEmpty symbol "BNB")

/-- The ledger update of lines 1027-1033 for a filled order. -/
def applyFill (balance : Ledger) (order : Order) : Ledger :=
  let baseAsset := (baseQuote order.symbol).1
  let quoteAsset := (baseQuote order.symbol).2
  match order.side with
  | Side.BUY =>
    let balance := balance.set baseAsset (some ((balance baseAsset).getD 0 + order.quantity))
    balance.set quoteAsset ((balance quoteAsset).map fun v => v - order.quantity * order.price)
  | Side.SELL =>
    let balance := balance.set baseAsset (some ((balance baseAsset).getD 0 - order.quantity))
    balance.set quoteAsset ((balance quoteAsset).map fun v => v + order.quantity * order.price)

/-- Outcome of the order-status request of lines 1007-1015: the request
failed (the `catch` of line 1058), or `data` arrived and `data.status` is or
is not `'FILLED'`. -/
inductive StatusReply where
  | failed
  | status (filled : Bool)
  deriving DecidableEq, Repr

/-- Outcome of the order request of lines 954-962: the request failed, or
`data` arrived, with or without an `orderId`. -/
inductive OrderReply where
  | failed
  | response (orderId : Option Nat)
  deriving DecidableEq, Repr

/-- The truthy `data.orderId` of a reply, if any (`0` is falsy). -/
def OrderReply.orderId (reply : OrderReply) : Option Nat :=
  match reply with
  | OrderReply.response (some n) => if n = 0 then none else some n
  | _ => none

/-- `placeBinanceOrder(symbol, side, quantity, price)` (lines 946-993) on the
trading state; `quantity` and `price` are the parsed numbers.  The value the
script returns is the reply itself (`null` for a failed request).  Writing
the status file does not change the state in memory. -/
def placeBinanceOrder (config : Config) (reply : OrderReply) (symbol : String)
    (side : Side) (quantity price : ℚ) (st : TradingStatus) : TradingStatus :=
  match reply.orderId with
  | some orderId =>
    let order : Order :=
      { id := orderId
        symbol := symbol
        side := side
        quantity := quantity
        price := price
        status := OrderStatus.ACTIVE
        takeProfitPrice :=
          if side = Side.BUY then some (price * (1 + config.takeProfitPercentage / 100))
          else none
        stopLossPrice :=
          if side = Side.BUY then some (price * (1 - config.stopLossPercentage / 100))
          else none }
    { st with
      activeOrders := st.activeOrders ++ [order]
      performance :=
        { st.performance with totalTrades := st.performance.totalTrades + 1 } }
  | none => st

/-- The loop of `checkOrderStatus` (lines 997-1061).  `pending` are the
orders from index `i` on, `kept` those before it (so the script's
`activeOrders` is `kept ++ pending`); a filled order is spliced out and the
index stays, any other order is stepped over. -/
def checkOrderStatus.loop (reply : Order → StatusReply) :
    List Order → List Order → List Order → Ledger → List Order × List Order × Ledger
  | [], kept, completedOrders, balance => (kept, completedOrders, balance)
  | order :: pending, kept, completedOrders, balance =>
    match reply order with
    | StatusReply.failed =>
      checkOrderStatus.loop reply pending (kept ++ [order]) completedOrders balance
    | StatusReply.status filled =>
      if filled = true ∧ order.status ≠ OrderStatus.COMPLETED then
        let order := { order with status := OrderStatus.COMPLETED }
        checkOrderStatus.loop reply pending kept
          (limitArraySize (completedOrders ++ [order]) 100) (applyFill balance order)
      else
        checkOrderStatus.loop reply pending (kept ++ [order]) completedOrders balance

/-- `checkOrderStatus()` (lines 996-1062); `reply` is the answer of the
exchange for each order. -/
def checkOrderStatus (reply : Order → StatusReply) (st : TradingStatus) : TradingStatus :=
  let r := checkOrderStatus.loop reply st.activeOrders [] st.completedOrders st.balance
  { st with activeOrders := r.1, completedOrders := r.2.1, balance := r.2.2 }

/-- `x.toFixed(digits)` read back as a number: `x` rounded to `digits`
decimals, halves away from zero. -/
def toFixed (x : ℚ) (digits : Nat) : ℚ :=
  let scaled := |x| * (10 : ℚ) ^ digits
  let n : Int := (2 * scaled.num + scaled.den) / (2 * scaled.den)
  (if x < 0 then -(n : ℚ) else (n : ℚ)) / (10 : ℚ) ^ digits

/-- What the exchange answers during `checkTakeProfitStopLoss`, per order:
the price of `getPrice` (`none` for its `null`), the free balance of
`checkBalance`, and the reply to the SELL request. -/
structure ExitEnv where
  price : Order → Option ℚ
  balance : Order → ℚ
  sell : Order → OrderReply

/-- The body of the loop of `checkTakeProfitStopLoss` (lines 1067-1170) for
one order.  A `null` exit level compares as `0`. -/
def checkTakeProfitStopLoss.step (config : Config) (env : ExitEnv)
    (st : TradingStatus) (order : Order) : TradingStatus :=
  if order.side = Side.BUY ∧ order.status = OrderStatus.COMPLETED then
    match env.price order with
    | none => st
    | some currentPrice =>
      if currentPrice = 0 then st
      else if currentPrice ≥ order.takeProfitPrice.getD 0 then
        if env.balance order < order.quantity then st
        else
          let st := placeBinanceOrder config (env.sell order) order.symbol Side.SELL
            (toFixed order.quantity 6) (toFixed currentPrice 8) st
          if (env.sell order).orderId.isSome then
            let profit := (currentPrice - order.price) * order.quantity
            let profitableTrades := st.performance.profitableTrades + 1
            let totalProfitLoss := st.performance.totalProfitLoss + profit
            { st with
              performance :=
                { st.performance with
                  profitableTrades := profitableTrades
                  totalProfitLoss := totalProfitLoss
                  winRate :=
                    ((profitableTrades : ℚ) / (st.performance.totalTrades : ℚ)) * 100 } }
          else st
      else if currentPrice ≤ order.stopLossPrice.getD 0 then
        if env.balance order < order.quantity then st
        else
          let st := placeBinanceOrder config (env.sell order) order.symbol Side.SELL
            (toFixed order.quantity 6) (toFixed currentPrice 8) st
          if (env.sell order).orderId.isSome then
            let loss := (order.price - currentPrice) * order.quantity
            { st with
              performance :=
                { st.performance with
                  totalProfitLoss := st.performance.totalProfitLoss - loss
                  winRate :=
                    ((st.performance.profitableTrades : ℚ)
                      / (st.performance.totalTrades : ℚ)) * 100 } }
          else st
      else st
  else st

/-- `checkTakeProfitStopLoss()` (lines 1065-1170): the loop body over the
active orders.  The orders the loop itself appends are SELL orders, which
the body skips, so the orders present at entry are the ones that matter. -/
def checkTakeProfitStopLoss (config : Config) (env : ExitEnv) (st : TradingStatus) :
    TradingStatus :=
  st.activeOrders.foldl (checkTakeProfitStopLoss.step config env) st

/-- The states reachable from `init` through the three operations, with
arbitrary answers of the exchange. -/
inductive Reachable (config : Config) (init : TradingStatus) : TradingStatus → Prop
  | start : Reachable config init init
  | place (st : TradingStatus) (reply : OrderReply) (symbol : String) (side : Side)
      (quantity price : ℚ) :
      Reachable config init st →
      Reachable config init (placeBinanceOrder config reply symbol side quantity price st)
  | check (st : TradingStatus) (reply : Order → StatusReply) :
      Reachable config init st → Reachable config init (checkOrderStatus reply st)
  | exit (st : TradingStatus) (env : ExitEnv) :
      Reachable config init st →
      Reachable config init (checkTakeProfitStopLoss config env st)

/-! ## Request retry, status file, trading threshold (lines 408-412, 453-519) -/

/-- The default `predictionConfidenceThreshold` of line 411. -/
def defaultPredictionConfidenceThreshold : ℚ := 75

/-- What `fetchWithRetry` does, in order: it issues attempt number `n`, or it
waits `ms` milliseconds. -/
inductive FetchEvent where
  | attempt (n : Nat)
  | wait (ms : ℚ)
  deriving DecidableEq, Repr

/-- The `for` loop of `fetchWithRetry` (lines 457-478) from attempt number
`attempt` on, with `remaining` passes left (`maxRetries - attempt + 1`, so
the loop test `attempt <= maxRetries` is `remaining > 0`).  `outcome n` is
what attempt `n` does: `ok` with the parsed response, or `error` for
anything thrown inside the `try`.  The result is what the function returns
or throws (`none` is the `undefined` of an unset `lastError`) and the events
in order. -/
def fetchWithRetry.loop {ε ρ : Type} (outcome : Nat → Except ε ρ) (maxRetries : Nat)
    (initialDelay : ℚ) : Nat → Nat → Option ε → Except (Option ε) ρ × List FetchEvent
  | 0, _, lastError => (Except.error lastError, [])
  | remaining + 1, attempt, _ =>
    match outcome attempt with
    | Except.ok response => (Except.ok response, [FetchEvent.attempt attempt])
    | Except.error error =>
      let rest := fetchWithRetry.loop outcome maxRetries initialDelay remaining
        (attempt + 1) (some error)
      if attempt < maxRetries then
        let backoffDelay := initialDelay * (2 : ℚ) ^ (attempt - 1)
        (rest.1, FetchEvent.attempt attempt :: FetchEvent.wait backoffDelay :: rest.2)
      else (rest.1, FetchEvent.attempt attempt :: rest.2)

/-- `fetchWithRetry(url, options, maxRetries, initialDelay)` (lines 454-481). -/
def fetchWithRetry {ε ρ : Type} (outcome : Nat → Except ε ρ) (maxRetries : Nat)
    (initialDelay : ℚ) : Except (Option ε) ρ × List FetchEvent :=
  fetchWithRetry.loop outcome maxRetries initialDelay maxRetries 1 none

/-- The object `statusToSave` of lines 509-512, which `saveStatusToFile`
writes to the status file. -/
def saveStatusToFile.statusToSave (st : TradingStatus) : TradingStatus :=
  { st with completedOrders := limitArraySize st.completedOrders 100 }

/-! ## Auxiliary definitions for the statements -/

/-- The accumulators are non-negative and never add up to more than the
weight seen so far. -/
def ScoresOk (sc : Scores) : Prop :=
  0 ≤ sc.bullishScore ∧ 0 ≤ sc.bearishScore ∧
    sc.bullishScore + sc.bearishScore ≤ sc.totalWeight

/-- Integer square root by bisection: with `lo * lo ≤ n < hi * hi` the result
`r` has `r * r ≤ n < (r + 1) * (r + 1)` once the fuel covers the interval. -/
def natSqrtAux : Nat → Nat → Nat → Nat → Nat
  | 0, lo, _, _ => lo
  | fuel + 1, lo, hi, n =>
    if hi ≤ lo + 1 then lo
    else
      let mid := (lo + hi) / 2
      if mid * mid ≤ n then natSqrtAux fuel mid hi n else natSqrtAux fuel lo mid n

/-- An executable stand-in for `Math.sqrt`: the square root rounded down to
a multiple of `1 / (1000 * den)`; `0` on negative arguments. -/
def sqrtApprox (x : ℚ) : ℚ :=
  let n := x.num.toNat * x.den * 1000000
  (natSqrtAux (n + 1) 0 (n + 1) n : ℚ) / ((x.den : ℚ) * 1000)

/-- Thirty hourly candles with closes rising by 1 from 591 to 620. -/
def risingCandles : List Candle :=
  (List.range 30).map fun (i : Nat) =>
    { timestamp := i, openPrice := 590 + i, high := 592 + i, low := 589 + i,
      close := 591 + i, volume := 100 + i }

/-- A snapshot in which every row triggers on the bullish side. -/
def allBullishSnapshot : Snapshot :=
  { rsi := 25, sma := 100, ema9 := 102, ema21 := 101,
    macd := { macd := 1, signal := 1 / 2, histogram := 1 / 2, previousHistogram := 1 / 4 },
    volume := { trend := VolumeTrend.increasing, changePercent := 10 },
    bollingerBands := { upper := 120, middle := 112, lower := 104 },
    stochastic := { k := 15, d := 10 },
    currentPrice := 103 }

/-- A snapshot in which no row triggers on either side. -/
def quietSnapshot : Snapshot :=
  { rsi := 50, sma := 100, ema9 := 100, ema21 := 100,
    macd := { macd := 0, signal := 0, histogram := 0, previousHistogram := 0 },
    volume := { trend := VolumeTrend.decreasing, changePercent := -10 },
    bollingerBands := { upper := 104, middle := 100, lower := 96 },
    stochastic := { k := 50, d := 50 },
    currentPrice := 100 }

/-- Spec side of the RSI row: the last `period` close-to-close changes, oldest
first (differences of neighbours among the last `period + 1` closes). -/
def rsiSpec.changes (data : List Candle) (period : Nat) : List ℚ :=
  let closes := (data.map (fun c => c.close)).drop (data.length - (period + 1))
  List.zipWith (fun prev cur => cur - prev) closes closes.tail

/-- Spec side of the RSI row: `G`, the sum of the non-negative changes. -/
def rsiSpec.G (data : List Candle) (period : Nat) : ℚ :=
  ((rsiSpec.changes data period).filter (fun c => 0 ≤ c)).sum

/-- Spec side of the RSI row: `L`, the sum of the magnitudes of the negative
changes. -/
def rsiSpec.L (data : List Candle) (period : Nat) : ℚ :=
  (((rsiSpec.changes data period).filter (fun c => c < 0)).map (fun c => |c|)).sum

/-- Well-formed candle: the close lies between the low and the high. -/
def Candle.WellFormed (c : Candle) : Prop :=
  c.low ≤ c.close ∧ c.close ≤ c.high

/-- Candles whose closes alternate between rises of 3 and falls of 1. -/
def zigzagCandles : List Candle :=
  (List.range 30).map fun (i : Nat) =>
    { timestamp := i, openPrice := 600 + i, high := 604 + i, low := 599 + i,
      close := 600 + i + 2 * ((i % 2 : Nat) : ℚ), volume := 100 + ((i % 3 : Nat) : ℚ) }

/-- Fifteen candles with high 2 and low 0; the last one closes at 10, above
its own high. -/
def illFormedCandles : List Candle :=
  List.replicate 14 { timestamp := 0, openPrice := 1, high := 2, low := 0, close := 1, volume := 1 }
    ++ [{ timestamp := 1, openPrice := 1, high := 2, low := 0, close := 10, volume := 1 }]

/-- Spec side of the EMA row, on a list of values: the last value when there
are fewer than `period` values, otherwise the SMA of the first `period`
values as seed followed by `ema = value * k + ema * (1 - k)`,
`k = 2 / (period + 1)`. -/
def emaRow (values : List ℚ) (period : Nat) : ℚ :=
  if values.length < period then values.getLastD 0
  else
    (values.drop period).foldl
      (fun ema v => v * (2 / ((period : ℚ) + 1)) + ema * (1 - 2 / ((period : ℚ) + 1)))
      ((values.take period).sum / period)

/-- Spec side of the MACD row: the MACD series, whose `i`-th element is
EMA(12) − EMA(26) over the first `26 + i` closes. -/
def macdSeries (closes : List ℚ) : List ℚ :=
  (List.range (closes.length - 25)).map fun (i : Nat) =>
    emaRow (closes.take (26 + i)) 12 - emaRow (closes.take (26 + i)) 26

/-- Spec side of the stochastic row: the raw %K at the last candle of `data`,
`(close − lowest low) / (highest high − lowest low) * 100` over the 14-candle
window ending at that candle. -/
def stochSpec.rawK (data : List Candle) : ℚ :=
  let window := data.drop (data.length - 14)
  let highest := mathMax (window.map (fun c => c.high))
  let lowest := mathMin (window.map (fun c => c.low))
  ((data.getLast?.map (fun c => c.close)).getD 0 - lowest) / (highest - lowest) * 100

/-- Spec side of the stochastic row: the mean of the three most recent raw
%K values (at the last candle, the one before it and the one before that). -/
def stochSpec.k (data : List Candle) : ℚ :=
  (stochSpec.rawK data + stochSpec.rawK data.dropLast
    + stochSpec.rawK data.dropLast.dropLast) / 3

/-- The divisor of `changePercent` (line 696): `avgPrevVolume` of lines
691-692. -/
def analyzeVolume.avgPrevVolume (data : List Candle) : ℚ :=
  let prevVolumes := (slice2 data (-10) (-5)).map (fun d => d.volume)
  jsSum prevVolumes / prevVolumes.length

/-- Ten hourly candles of a pair that did not trade during the first five
hours (volume 0) and traded 10 units in each of the last five. -/
def idleThenTradedCandles : List Candle :=
  (List.range 10).map fun (i : Nat) =>
    { timestamp := i, openPrice := 100, high := 101, low := 99, close := 100,
      volume := if i < 5 then 0 else 10 }

/-- An order that `checkOrderStatus` leaves in `activeOrders`: its request
failed, or the answer is not `FILLED`, or the order is already `COMPLETED`. -/
def checkOrderStatus.stays (reply : Order → StatusReply) (order : Order) : Bool :=
  match reply order with
  | StatusReply.failed => true
  | StatusReply.status filled =>
    !(decide (filled = true ∧ order.status ≠ OrderStatus.COMPLETED))

/-- The status invariant of the two order collections. -/
def StatusInvariant (st : TradingStatus) : Prop :=
  (∀ o ∈ st.activeOrders, o.status = OrderStatus.ACTIVE) ∧
    (∀ o ∈ st.completedOrders, o.status = OrderStatus.COMPLETED)

/-- Every entry of the ledger that holds a number is non-negative. -/
def Ledger.NonNeg (balance : Ledger) : Prop :=
  ∀ a v, balance a = some v → 0 ≤ v

/-- A trading pair `(symbol, baseAsset, quoteAsset)` quoted in BNB: the quote
asset is `BNB`, the symbol is the base asset followed by `BNB`, the base
asset is not empty, and `BNB` does not occur in the symbol before its last
three characters. -/
def QuotedInBNB (pair : String × String × String) : Prop :=
  pair.2.2 = "BNB" ∧ pair.2.1 ≠ "" ∧ pair.1 = pair.2.1 ++ "BNB" ∧
    ∀ i, i < pair.2.1.length → (pair.1.data.drop i).take 3 ≠ "BNB".data

/-- A filled order is covered by the ledger, in the assets of its pair in the
table `pairs`: the quote entry exists, and a BUY costs at most the quote
balance (with a non-negative quantity) while a SELL delivers at most the
base balance (for a non-negative amount). -/
def Covered (pairs : List (String × String × String)) (balance : Ledger) (order : Order) :
    Prop :=
  ∃ pair ∈ pairs, pair.1 = order.symbol ∧
    ∃ v, balance pair.2.2 = some v ∧
      match order.side with
      | Side.BUY => 0 ≤ order.quantity ∧ order.quantity * order.price ≤ v
      | Side.SELL =>
        0 ≤ order.quantity * order.price ∧ order.quantity ≤ (balance pair.2.1).getD 0

/-- Every order that a run of `checkOrderStatus` applies to the ledger is an
order on a pair of `pairs` that the ledger covers as it is at that moment. -/
def checkOrderStatus.CoveredRun (pairs : List (String × String × String))
    (reply : Order → StatusReply) : List Order → Ledger → Prop
  | [], _ => True
  | order :: pending, balance =>
    match reply order with
    | StatusReply.failed => checkOrderStatus.CoveredRun pairs reply pending balance
    | StatusReply.status filled =>
      if filled = true ∧ order.status ≠ OrderStatus.COMPLETED then
        Covered pairs balance order ∧
          checkOrderStatus.CoveredRun pairs reply pending
            (applyFill balance { order with status := OrderStatus.COMPLETED })
      else checkOrderStatus.CoveredRun pairs reply pending balance

/-- The states reached from `init` by sequences of the three operations in
which every run of `checkOrderStatus` applies covered orders on pairs of
`pairs` only. -/
inductive CoveredTrace (config : Config) (pairs : List (String × String × String))
    (init : TradingStatus) : TradingStatus → Prop
  | start : CoveredTrace config pairs init init
  | place (st : TradingStatus) (reply : OrderReply) (symbol : String) (side : Side)
      (quantity price : ℚ) :
      CoveredTrace config pairs init st →
      CoveredTrace config pairs init
        (placeBinanceOrder config reply symbol side quantity price st)
  | check (st : TradingStatus) (reply : Order → StatusReply) :
      CoveredTrace config pairs init st →
      checkOrderStatus.CoveredRun pairs reply st.activeOrders st.balance →
      CoveredTrace config pairs init (checkOrderStatus reply st)
  | exit (st : TradingStatus) (env : ExitEnv) :
      CoveredTrace config pairs init st →
      CoveredTrace config pairs init (checkTakeProfitStopLoss config env st)

/-- The default `tradingPairs` of lines 415-421: symbol, base asset, quote
asset. -/
def defaultTradingPairs : List (String × String × String) :=
  [("BNBUSDT", "BNB", "USDT"), ("BTCBNB", "BTC", "BNB"), ("ETHBNB", "ETH", "BNB"),
   ("ADABNB", "ADA", "BNB"), ("DOGEBNB", "DOGE", "BNB")]

/-- The default pairs quoted in BNB: `BTCBNB`, `ETHBNB`, `ADABNB`,
`DOGEBNB`. -/
def bnbQuotedPairs : List (String × String × String) :=
  defaultTradingPairs.filter fun pair => decide (pair.2.2 = "BNB")

/-- The exchange answers `FILLED` for every order. -/
def allFilled : Order → StatusReply :=
  fun _ => StatusReply.status true

/-- The initial state after a BUY of 1 BNB at 100 USDT on `BNBUSDT` was
accepted with order id 1. -/
def bnbusdtPlaced : TradingStatus :=
  placeBinanceOrder defaultConfig (OrderReply.response (some 1)) "BNBUSDT" Side.BUY 1 100
    (initialStatus defaultInitialBalance)

/-- `bnbusdtPlaced` after `checkOrderStatus` observed the order `FILLED`. -/
def bnbusdtFilled : TradingStatus :=
  checkOrderStatus allFilled bnbusdtPlaced

/-- The exchange during the exit check of the lifecycle scenario: price 103,
10 units free, the SELL request accepted with order id 2. -/
def exitAt103 : ExitEnv :=
  { price := fun _ => some 103
    balance := fun _ => 10
    sell := fun _ => OrderReply.response (some 2) }

/-- The initial state after a BUY of 1 BTC at 100 BNB on `BTCBNB` was
accepted and then observed `FILLED`: the ledger holds 1 BNB only. -/
def overdrawnStatus : TradingStatus :=
  checkOrderStatus allFilled
    (placeBinanceOrder defaultConfig (OrderReply.response (some 1)) "BTCBNB" Side.BUY 1 100
      (initialStatus defaultInitialBalance))

/-- The initial state after a BUY of 0.01 BTC at 50 BNB on `BTCBNB` (cost 0.5
BNB) was accepted and then observed `FILLED`. -/
def coveredStatus : TradingStatus :=
  checkOrderStatus allFilled
    (placeBinanceOrder defaultConfig (OrderReply.response (some 1)) "BTCBNB" Side.BUY (1 / 100)
      50 (initialStatus defaultInitialBalance))

/-- Spec side of the retry layer: the events of a call whose last attempt has
number `a`: attempts `1, …, a` in order, each of the first `a - 1` followed
by a wait of `initialDelay * 2 ^ (attempt - 1)`, and nothing after attempt
`a`. -/
def fetchWithRetry.expectedEvents (initialDelay : ℚ) (a : Nat) : List FetchEvent :=
  (List.range' 1 (a - 1)).flatMap
      (fun j => [FetchEvent.attempt j, FetchEvent.wait (initialDelay * (2 : ℚ) ^ (j - 1))])
    ++ [FetchEvent.attempt a]

/-- The loop body of `checkTakeProfitStopLoss` records the exit of `order` at
price `x`: a filled BUY order, a non-zero price `x` from `getPrice`, the
take-profit or the stop-loss level reached, enough free balance, and the
SELL request accepted. -/
def checkTakeProfitStopLoss.Closes (env : ExitEnv) (order : Order) (x : ℚ) : Prop :=
  order.side = Side.BUY ∧ order.status = OrderStatus.COMPLETED ∧
    env.price order = some x ∧ x ≠ 0 ∧
    (x ≥ order.takeProfitPrice.getD 0 ∨ x ≤ order.stopLossPrice.getD 0) ∧
    ¬ env.balance order < order.quantity ∧ (env.sell order).orderId.isSome = true

/-- The order that `placeBinanceOrder` builds at lines 968-978 for order id
`orderId`. -/
def placeBinanceOrder.order (config : Config) (orderId : Nat) (symbol : String)
    (side : Side) (quantity price : ℚ) : Order :=
  { id := orderId
    symbol := symbol
    side := side
    quantity := quantity
    price := price
    status := OrderStatus.ACTIVE
    takeProfitPrice :=
      if side = Side.BUY then some (price * (1 + config.takeProfitPercentage / 100))
      else none
    stopLossPrice :=
      if side = Side.BUY then some (price * (1 - config.stopLossPercentage / 100))
      else none }

/-- The order of `coveredStatus` as `placeBinanceOrder` records it. -/
def coveredOrder : Order :=
  placeBinanceOrder.order defaultConfig 1 "BTCBNB" Side.BUY (1 / 100) 50

/-- The order of `overdrawnStatus` as `placeBinanceOrder` records it. -/
def overdrawnOrder : Order :=
  placeBinanceOrder.order defaultConfig 1 "BTCBNB" Side.BUY 1 100

/-- Spec side of the volume row: the mean volume of the last 5 candles. -/
def volumeSpec.recentMean (data : List Candle) : ℚ :=
  ((data.drop (data.length - 5)).map (fun c => c.volume)).sum / 5

/-- Spec side of the volume row: the mean volume of the 5 candles before the
last 5. -/
def volumeSpec.previousMean (data : List Candle) : ℚ :=
  (((data.drop (data.length - 10)).take 5).map (fun c => c.volume)).sum / 5

/-- A filled BUY of 1 at 100 with the default exit levels 102.5 and 98.5. -/
def heldOrder : Order :=
  { id := 1, symbol := "BNBUSDT", side := Side.BUY, quantity := 1, price := 100,
    status := OrderStatus.COMPLETED, takeProfitPrice := some 102.5,
    stopLossPrice := some 98.5 }

/-- A trading status (as a status file may hold it) whose `activeOrders`
still lists `heldOrder`, after three trades of which two were profitable. -/
def heldStatus : TradingStatus :=
  { activeOrders := [heldOrder]
    completedOrders := []
    balance := defaultInitialBalance
    performance :=
      { totalTrades := 3, profitableTrades := 2, totalProfitLoss := 5, winRate := 200 / 3 }
    lastPerformanceReport := 0 }

/-- Attempts 1 and 2 fail (with their number as error), attempt 3 succeeds
with response 200. -/
def failTwiceThenSucceed : Nat → Except Nat Nat :=
  fun n => if n < 3 then Except.error n else Except.ok 200

/-- Every attempt fails, with its number as error. -/
def alwaysFail : Nat → Except Nat Nat :=
  fun n => Except.error n

/-! ## Helper lemmas -/

theorem slice1_neg {α : Type} (l : List α) (p : Nat) (hp : 0 < p) :
    slice1 l (-(p : Int)) = l.drop (l.length - p) := by
  unfold slice1
  have h : (-(p : Int)) < 0 := by omega
  simp only [h, if_true]
  congr 1
  omega

theorem slice2_zero_natCast {α : Type} (l : List α) (n : Nat) :
    slice2 l 0 (n : Int) = l.take n := by
  unfold slice2
  have h : ¬ ((n : Int) < 0) := by omega
  have h0 : (min (0 : Int) (l.length : Int)).toNat = 0 := by omega
  simp only [h, if_false, lt_irrefl, h0, List.drop_zero]
  rcases le_total n l.length with hl | hl
  · have : (min (n : Int) (l.length : Int) - min 0 (l.length : Int)).toNat = n := by omega
    rw [this]
  · have : (min (n : Int) (l.length : Int) - min 0 (l.length : Int)).toNat = l.length := by
      omega
    rw [this, List.take_of_length_le hl, List.take_length]

theorem slice2_zero_sub {α : Type} (l : List α) (i : Nat) (hi : i ≤ l.length) :
    slice2 l 0 ((l.length : Int) - (i : Int)) = l.take (l.length - i) := by
  have : ((l.length : Int) - (i : Int)) = ((l.length - i : Nat) : Int) := by omega
  rw [this, slice2_zero_natCast]

theorem jsSum_eq_sum (xs : List ℚ) : jsSum xs = xs.sum := by
  unfold jsSum
  rw [List.sum_eq_foldl]

theorem lastClose_of_ne_nil (data : List Candle) (h : data ≠ []) :
    lastClose data = some (data.getLast h).close := by
  unfold lastClose
  rw [List.getLast?_eq_getLast _ h]
  rfl

theorem applyRow_totalWeight (w : ℚ) (bull bear : Prop) [Decidable bull] [Decidable bear]
    (sc : Scores) : (applyRow w bull bear sc).totalWeight = sc.totalWeight + w := by
  unfold applyRow
  split_ifs <;> rfl

theorem applyRow_ok (w : ℚ) (hw : 0 ≤ w) (bull bear : Prop) [Decidable bull]
    [Decidable bear] (sc : Scores) (h : ScoresOk sc) :
    ScoresOk (applyRow w bull bear sc) := by
  obtain ⟨h1, h2, h3⟩ := h
  unfold applyRow ScoresOk
  split_ifs <;> refine ⟨?_, ?_, ?_⟩ <;> simp only <;> linarith

theorem scoreRows_totalWeight (s : Snapshot) : (scoreRows s).totalWeight = 13 := by
  unfold scoreRows
  simp only [applyRow_totalWeight]
  norm_num

theorem scoreRows_ok (s : Snapshot) : ScoresOk (scoreRows s) := by
  unfold scoreRows
  refine applyRow_ok _ (by norm_num) _ _ _ ?_
  refine applyRow_ok _ (by norm_num) _ _ _ ?_
  refine applyRow_ok _ (by norm_num) _ _ _ ?_
  refine applyRow_ok _ (by norm_num) _ _ _ ?_
  refine applyRow_ok _ (by norm_num) _ _ _ ?_
  refine applyRow_ok _ (by norm_num) _ _ _ ?_
  refine ⟨?_, ?_, ?_⟩ <;> norm_num

theorem decision_confidence_range (sc : Scores) (h : ScoresOk sc)
    (hw : 0 < sc.totalWeight) : 0 ≤ (decision sc).2 ∧ (decision sc).2 ≤ 100 := by
  obtain ⟨h1, h2, h3⟩ := h
  unfold decision
  split_ifs
  · simp only
    constructor
    · positivity
    · rw [div_mul_eq_mul_div, div_le_iff₀ hw]; linarith
  · simp only
    constructor
    · positivity
    · rw [div_mul_eq_mul_div, div_le_iff₀ hw]; linarith
  · simp

theorem decision_hold (sc : Scores) (h : (decision sc).1 = Prediction.HOLD) :
    (decision sc).2 = 0 := by
  unfold decision at h ⊢
  split_ifs at h ⊢
  rfl

theorem snapshot_isSome (mathSqrt : ℚ → ℚ) (data : List Candle) (h : 30 ≤ data.length) :
    ∃ s, snapshot mathSqrt data = some s ∧ lastClose data = some s.currentPrice := by
  have hne : data ≠ [] := by
    intro h0; rw [h0] at h; simp at h
  have h1 : ¬ data.length < 20 := by omega
  have h2 : ¬ data.length < 9 := by omega
  have h3 : ¬ data.length < 21 := by omega
  have h4 : ¬ data.length < 14 := by omega
  simp [snapshot, calculateSMA, calculateEMA, calculateStochastic, h1, h2, h3, h4,
    lastClose_of_ne_nil data hne]

theorem predictPriceMovement_of_snapshot (mathSqrt : ℚ → ℚ) (config : Config)
    (symbol : String) (data : List Candle) (h : 30 ≤ data.length) (s : Snapshot)
    (hs : snapshot mathSqrt data = some s) :
    predictPriceMovement mathSqrt config symbol (some data)
      = some (buildSignal config symbol s) := by
  have h1 : ¬ data.length < 30 := by omega
  simp [predictPriceMovement, h1, hs]

/-! ## Signal scorer: the decision and its confidence -/

/-- C1: for every symbol and every candle sequence (missing ones included)
`predictPriceMovement` returns a signal whose confidence lies in `[0, 100]`,
and a returned `HOLD` has confidence exactly `0`. -/
theorem predictPriceMovement_confidence_bounds (mathSqrt : ℚ → ℚ) (config : Config)
    (symbol : String) (historicalData : Option (List Candle)) :
    ∃ sig, predictPriceMovement mathSqrt config symbol historicalData = some sig ∧
      0 ≤ sig.confidence ∧ sig.confidence ≤ 100 ∧
      (sig.prediction = Prediction.HOLD → sig.confidence = 0) := by
  cases historicalData with
  | none => exact ⟨⟨Prediction.HOLD, 0, none⟩, rfl, by norm_num, by norm_num, fun _ => rfl⟩
  | some data =>
    by_cases h : data.length < 30
    · refine ⟨⟨Prediction.HOLD, 0, none⟩, ?_, by norm_num, by norm_num, fun _ => rfl⟩
      simp [predictPriceMovement, h]
    · obtain ⟨s, hs, -⟩ := snapshot_isSome mathSqrt data (by omega)
      refine ⟨buildSignal config symbol s,
        predictPriceMovement_of_snapshot mathSqrt config symbol data (by omega) s hs, ?_⟩
      have hr := decision_confidence_range (scoreRows s) (scoreRows_ok s)
        (by rw [scoreRows_totalWeight]; norm_num)
      exact ⟨hr.1, hr.2, decision_hold (scoreRows s)⟩

/-- C2: on at least 30 candles the result is `BUY` exactly when
`bullishScore > bearishScore` (confidence `bullishScore / totalWeight * 100`),
`SELL` exactly when `bearishScore > bullishScore` (confidence
`bearishScore / totalWeight * 100`), and `HOLD`, with confidence `0`, exactly
when the two scores are equal, whatever their common value. -/
theorem predictPriceMovement_decision (mathSqrt : ℚ → ℚ) (config : Config)
    (symbol : String) (data : List Candle) (h : 30 ≤ data.length) :
    ∃ snap sig, snapshot mathSqrt data = some snap ∧
      predictPriceMovement mathSqrt config symbol (some data) = some sig ∧
      (sig.prediction = Prediction.BUY ↔
        (scoreRows snap).bullishScore > (scoreRows snap).bearishScore) ∧
      (sig.prediction = Prediction.BUY → sig.confidence =
        (scoreRows snap).bullishScore / (scoreRows snap).totalWeight * 100) ∧
      (sig.prediction = Prediction.SELL ↔
        (scoreRows snap).bearishScore > (scoreRows snap).bullishScore) ∧
      (sig.prediction = Prediction.SELL → sig.confidence =
        (scoreRows snap).bearishScore / (scoreRows snap).totalWeight * 100) ∧
      (sig.prediction = Prediction.HOLD ↔
        (scoreRows snap).bullishScore = (scoreRows snap).bearishScore) ∧
      (sig.prediction = Prediction.HOLD → sig.confidence = 0) := by
  obtain ⟨s, hs, -⟩ := snapshot_isSome mathSqrt data h
  refine ⟨s, buildSignal config symbol s, hs,
    predictPriceMovement_of_snapshot mathSqrt config symbol data h s hs, ?_⟩
  show ((decision (scoreRows s)).1 = _ ↔ _) ∧ ((decision (scoreRows s)).1 = _ →
    (decision (scoreRows s)).2 = _) ∧ ((decision (scoreRows s)).1 = _ ↔ _) ∧
    ((decision (scoreRows s)).1 = _ → (decision (scoreRows s)).2 = _) ∧
    ((decision (scoreRows s)).1 = _ ↔ _) ∧
    ((decision (scoreRows s)).1 = _ → (decision (scoreRows s)).2 = _)
  generalize scoreRows s = sc
  unfold decision
  by_cases h1 : sc.bullishScore > sc.bearishScore
  · have h2 : ¬ sc.bearishScore > sc.bullishScore := not_lt.mpr h1.le
    have h3 : sc.bullishScore ≠ sc.bearishScore := ne_of_gt h1
    simp [h1, h2, h3]
  · by_cases h2 : sc.bearishScore > sc.bullishScore
    · have h3 : sc.bullishScore ≠ sc.bearishScore := ne_of_lt h2
      simp [h1, h2, h3]
    · have h3 : sc.bullishScore = sc.bearishScore :=
        le_antisymm (not_lt.mp h1) (not_lt.mp h2)
      simp [h1, h2, h3]

/-- Witness of C2 on the thirty rising candles. -/
theorem predictPriceMovement_decision_witness :
    30 ≤ risingCandles.length ∧
    ∃ snap sig, snapshot sqrtApprox risingCandles = some snap ∧
      predictPriceMovement sqrtApprox defaultConfig "BNBUSDT" (some risingCandles)
        = some sig ∧
      (sig.prediction = Prediction.BUY ↔
        (scoreRows snap).bullishScore > (scoreRows snap).bearishScore) ∧
      (sig.prediction = Prediction.BUY → sig.confidence =
        (scoreRows snap).bullishScore / (scoreRows snap).totalWeight * 100) ∧
      (sig.prediction = Prediction.SELL ↔
        (scoreRows snap).bearishScore > (scoreRows snap).bullishScore) ∧
      (sig.prediction = Prediction.SELL → sig.confidence =
        (scoreRows snap).bearishScore / (scoreRows snap).totalWeight * 100) ∧
      (sig.prediction = Prediction.HOLD ↔
        (scoreRows snap).bullishScore = (scoreRows snap).bearishScore) ∧
      (sig.prediction = Prediction.HOLD → sig.confidence = 0) :=
  ⟨by decide, predictPriceMovement_decision sqrtApprox defaultConfig "BNBUSDT"
    risingCandles (by decide)⟩

/-- C3 (as amended): on at least 30 candles the `totalWeight` by which the
confidence is normalised is the sum `2 + 3 + 2.5 + 1.5 + 2 + 2` of the six
row weights, which is `13` for every input. -/
theorem predictPriceMovement_totalWeight (mathSqrt : ℚ → ℚ) (data : List Candle)
    (h : 30 ≤ data.length) :
    ∃ snap, snapshot mathSqrt data = some snap ∧
      (scoreRows snap).totalWeight = 2 + 3 + 2.5 + 1.5 + 2 + 2 ∧
      (scoreRows snap).totalWeight = 13 := by
  obtain ⟨s, hs, -⟩ := snapshot_isSome mathSqrt data h
  refine ⟨s, hs, ?_, scoreRows_totalWeight s⟩
  rw [scoreRows_totalWeight]
  norm_num

/-- Witness of C3 (as amended) on the thirty rising candles. -/
theorem predictPriceMovement_totalWeight_witness :
    30 ≤ risingCandles.length ∧
    ∃ snap, snapshot sqrtApprox risingCandles = some snap ∧
      (scoreRows snap).totalWeight = 2 + 3 + 2.5 + 1.5 + 2 + 2 ∧
      (scoreRows snap).totalWeight = 13 :=
  ⟨by decide, predictPriceMovement_totalWeight sqrtApprox risingCandles (by decide)⟩

set_option maxRecDepth 100000 in
/-- Counterexample to C3 as stated: on the thirty rising candles the
normalising `totalWeight` evaluates to `13`, not `11`. -/
theorem totalWeight_ne_eleven :
    30 ≤ risingCandles.length ∧
    (snapshot sqrtApprox risingCandles).map (fun snap => (scoreRows snap).totalWeight)
      = some 13 ∧
    (snapshot sqrtApprox risingCandles).map (fun snap => (scoreRows snap).totalWeight)
      ≠ some 11 := by
  decide!

/-- C4: when all six rows trigger on the bullish side the decision is `BUY`
with confidence exactly `100`, and when no row triggers on either side the
decision is `HOLD`. -/
theorem scoring_all_bullish_and_none (config : Config) (symbol : String) (s : Snapshot) :
    (s.rsi < 30 → s.ema9 > s.ema21 →
      (s.macd.histogram > 0 ∧ s.macd.histogram > s.macd.previousHistogram) →
      (s.volume.trend = VolumeTrend.increasing ∧ s.currentPrice > s.sma) →
      s.currentPrice < s.bollingerBands.lower →
      (s.stochastic.k < 20 ∧ s.stochastic.k > s.stochastic.d) →
      (buildSignal config symbol s).prediction = Prediction.BUY ∧
        (buildSignal config symbol s).confidence = 100) ∧
    (¬ (s.rsi < 30) → ¬ (s.rsi > 70) → ¬ (s.ema9 > s.ema21) → ¬ (s.ema9 < s.ema21) →
      ¬ (s.macd.histogram > 0 ∧ s.macd.histogram > s.macd.previousHistogram) →
      ¬ (s.macd.histogram < 0 ∧ s.macd.histogram < s.macd.previousHistogram) →
      ¬ (s.volume.trend = VolumeTrend.increasing ∧ s.currentPrice > s.sma) →
      ¬ (s.volume.trend = VolumeTrend.increasing ∧ s.currentPrice < s.sma) →
      ¬ (s.currentPrice < s.bollingerBands.lower) →
      ¬ (s.currentPrice > s.bollingerBands.upper) →
      ¬ (s.stochastic.k < 20 ∧ s.stochastic.k > s.stochastic.d) →
      ¬ (s.stochastic.k > 80 ∧ s.stochastic.k < s.stochastic.d) →
      (buildSignal config symbol s).prediction = Prediction.HOLD ∧
        (buildSignal config symbol s).confidence = 0) := by
  constructor
  · intro h1 h2 h3 h4 h5 h6
    have hsc : scoreRows s = ⟨13, 0, 13⟩ := by
      unfold scoreRows applyRow
      simp only [h1, h2, h3, h4, h5, h6, if_true, and_self]
      norm_num
    show (decision (scoreRows s)).1 = _ ∧ (decision (scoreRows s)).2 = _
    rw [hsc]
    unfold decision
    norm_num
  · intro h1 h1' h2 h2' h3 h3' h4 h4' h5 h5' h6 h6'
    have hsc : scoreRows s = ⟨0, 0, 13⟩ := by
      unfold scoreRows applyRow
      simp only [h1, h1', h2, h2', h3, h3', h4, h4', h5, h5', h6, h6', if_false]
      norm_num
    show (decision (scoreRows s)).1 = _ ∧ (decision (scoreRows s)).2 = _
    rw [hsc]
    unfold decision
    norm_num

/-- Witness of C4: a snapshot with every row bullish and one with no row
triggered. -/
theorem scoring_all_bullish_and_none_witness :
    ((buildSignal defaultConfig "BNBUSDT" allBullishSnapshot).prediction = Prediction.BUY ∧
      (buildSignal defaultConfig "BNBUSDT" allBullishSnapshot).confidence = 100) ∧
    ((buildSignal defaultConfig "BNBUSDT" quietSnapshot).prediction = Prediction.HOLD ∧
      (buildSignal defaultConfig "BNBUSDT" quietSnapshot).confidence = 0) :=
  ⟨(scoring_all_bullish_and_none defaultConfig "BNBUSDT" allBullishSnapshot).1
      (by decide!) (by decide!) (by decide!) (by decide!) (by decide!) (by decide!),
   (scoring_all_bullish_and_none defaultConfig "BNBUSDT" quietSnapshot).2
      (by decide!) (by decide!) (by decide!) (by decide!) (by decide!) (by decide!)
      (by decide!) (by decide!) (by decide!) (by decide!) (by decide!) (by decide!)⟩

/-- C5: when the candle sequence is missing or has fewer than 30 candles (in
particular when it has at most 24, the default `limit` of
`getHistoricalData`), `predictPriceMovement` returns exactly the two-field
object `HOLD` with confidence `0`: no indicator, price or symbol field. -/
theorem predictPriceMovement_insufficient (mathSqrt : ℚ → ℚ) (config : Config)
    (symbol : String) (historicalData : Option (List Candle))
    (h : ∀ data, historicalData = some data →
      data.length < 30 ∨ data.length ≤ getHistoricalData.defaultLimit) :
    predictPriceMovement mathSqrt config symbol historicalData
      = some { prediction := Prediction.HOLD, confidence := 0, detail := none } := by
  cases historicalData with
  | none => rfl
  | some data =>
    have hlt : data.length < 30 := by
      rcases h data rfl with h1 | h1
      · exact h1
      · unfold getHistoricalData.defaultLimit at h1
        omega
    simp [predictPriceMovement, hlt]

/-- Witness of C5: the first 24 of the rising candles. -/
theorem predictPriceMovement_insufficient_witness :
    (∀ data, some (risingCandles.take 24) = some data →
      data.length < 30 ∨ data.length ≤ getHistoricalData.defaultLimit) ∧
    predictPriceMovement sqrtApprox defaultConfig "BNBUSDT" (some (risingCandles.take 24))
      = some { prediction := Prediction.HOLD, confidence := 0, detail := none } :=
  ⟨fun data hd => by
      cases hd
      exact Or.inl (by decide),
   predictPriceMovement_insufficient sqrtApprox defaultConfig "BNBUSDT"
    (some (risingCandles.take 24)) (fun data hd => by
      cases hd
      exact Or.inl (by decide))⟩

/-- C6: on at least 30 candles with last close `p`, a `BUY` carries
`takeProfitPrice = p * (1 + takeProfitPercentage / 100)` and
`stopLossPrice = p * (1 - stopLossPercentage / 100)`, a `SELL` or `HOLD`
carries `null` in both; with the default percentages and `p = 620` a `BUY`
gives `635.5` and `610.7`. -/
theorem predictPriceMovement_exit_prices (mathSqrt : ℚ → ℚ) (config : Config)
    (symbol : String) (data : List Candle) (h : 30 ≤ data.length) :
    ∃ sig d p, predictPriceMovement mathSqrt config symbol (some data) = some sig ∧
      sig.detail = some d ∧ lastClose data = some p ∧ d.currentPrice = p ∧
      (sig.prediction = Prediction.BUY →
        d.takeProfitPrice = some (p * (1 + config.takeProfitPercentage / 100)) ∧
        d.stopLossPrice = some (p * (1 - config.stopLossPercentage / 100))) ∧
      (sig.prediction = Prediction.SELL ∨ sig.prediction = Prediction.HOLD →
        d.takeProfitPrice = none ∧ d.stopLossPrice = none) ∧
      (config = defaultConfig → p = 620 → sig.prediction = Prediction.BUY →
        d.takeProfitPrice = some 635.5 ∧ d.stopLossPrice = some 610.7) := by
  obtain ⟨s, hs, hp⟩ := snapshot_isSome mathSqrt data h
  have hsig := predictPriceMovement_of_snapshot mathSqrt config symbol data h s hs
  have hbuy : (buildSignal config symbol s).prediction = Prediction.BUY →
      ∀ d, (buildSignal config symbol s).detail = some d →
        d.takeProfitPrice = some (s.currentPrice * (1 + config.takeProfitPercentage / 100)) ∧
        d.stopLossPrice = some (s.currentPrice * (1 - config.stopLossPercentage / 100)) := by
    intro hb d hd
    have hb' : (decision (scoreRows s)).1 = Prediction.BUY := hb
    simp only [buildSignal, Option.some.injEq] at hd
    subst hd
    simp [hb']
  refine ⟨buildSignal config symbol s, _, s.currentPrice, hsig, rfl, hp, rfl,
    fun hb => hbuy hb _ rfl, ?_, ?_⟩
  · intro hb
    have hb' : (decision (scoreRows s)).1 ≠ Prediction.BUY := by
      rcases hb with hb | hb
      · have : (decision (scoreRows s)).1 = Prediction.SELL := hb
        rw [this]; decide
      · have : (decision (scoreRows s)).1 = Prediction.HOLD := hb
        rw [this]; decide
    simp [hb']
  · intro hc hp620 hb
    obtain ⟨h1, h2⟩ := hbuy hb _ rfl
    refine ⟨h1.trans ?_, h2.trans ?_⟩
    · rw [hp620, hc]
      unfold defaultConfig
      norm_num
    · rw [hp620, hc]
      unfold defaultConfig
      norm_num

set_option maxRecDepth 100000 in
/-- Witness of C6: the thirty rising candles end at close `620` and give a
`BUY` with take-profit `635.5` and stop-loss `610.7`. -/
theorem predictPriceMovement_exit_prices_witness :
    30 ≤ risingCandles.length ∧
    (predictPriceMovement sqrtApprox defaultConfig "BNBUSDT" (some risingCandles)).map
      (fun sig => (sig.prediction, sig.detail.map
        (fun d => (d.currentPrice, d.takeProfitPrice, d.stopLossPrice))))
      = some (Prediction.BUY, some (620, some 635.5, some 610.7)) ∧
    ∃ sig d p, predictPriceMovement sqrtApprox defaultConfig "BNBUSDT" (some risingCandles)
        = some sig ∧
      sig.detail = some d ∧ lastClose risingCandles = some p ∧ d.currentPrice = p ∧
      (sig.prediction = Prediction.BUY →
        d.takeProfitPrice = some (p * (1 + defaultConfig.takeProfitPercentage / 100)) ∧
        d.stopLossPrice = some (p * (1 - defaultConfig.stopLossPercentage / 100))) ∧
      (sig.prediction = Prediction.SELL ∨ sig.prediction = Prediction.HOLD →
        d.takeProfitPrice = none ∧ d.stopLossPrice = none) ∧
      (defaultConfig = defaultConfig → p = 620 → sig.prediction = Prediction.BUY →
        d.takeProfitPrice = some 635.5 ∧ d.stopLossPrice = some 610.7) :=
  ⟨by decide, by decide!, predictPriceMovement_exit_prices sqrtApprox defaultConfig
    "BNBUSDT" risingCandles (by decide)⟩

/-! ## Indicator engine: RSI, stochastic oscillator, Bollinger bands -/

theorem foldl_rsiStep (data : List Candle) (idxs : List Nat) (acc : ℚ × ℚ) :
    idxs.foldl (rsiStep data) acc =
      (acc.1 + (((idxs.map fun i => closeAt data i - closeAt data (i - 1)).filter
          (fun c => 0 ≤ c)).sum),
       acc.2 + ((((idxs.map fun i => closeAt data i - closeAt data (i - 1)).filter
          (fun c => c < 0)).map (fun c => |c|)).sum)) := by
  induction idxs generalizing acc with
  | nil => simp
  | cons i rest ih =>
    rw [List.foldl_cons, ih]
    unfold rsiStep
    simp only [List.map_cons]
    generalize closeAt data i - closeAt data (i - 1) = c
    by_cases hc : c ≥ 0
    · have hc' : ¬ (c < 0) := not_lt.mpr hc
      have hc2 : 0 ≤ c := hc
      simp [hc2, hc', add_assoc]
    · have hc' : c < 0 := not_le.mp hc
      have hc2 : ¬ 0 ≤ c := hc
      simp [hc2, hc', abs_of_neg hc', add_assoc, sub_eq_add_neg]

theorem closeAt_eq (data : List Candle) (i : Nat) (h : i < data.length) :
    closeAt data i = (data.get ⟨i, h⟩).close := by
  unfold closeAt
  rw [List.get?_eq_get h]

theorem range_changes_eq (data : List Candle) (period : Nat)
    (h : period + 1 ≤ data.length) :
    (List.range' (data.length - period) period).map
        (fun i => closeAt data i - closeAt data (i - 1))
      = rsiSpec.changes data period := by
  unfold rsiSpec.changes
  apply List.ext_getElem
  · simp
    omega
  · intro j h1 h2
    simp only [List.length_map, List.length_range'] at h1
    simp only [List.getElem_map, List.getElem_range', List.getElem_zipWith,
      List.getElem_tail, List.getElem_drop]
    rw [closeAt_eq data _ (by omega), closeAt_eq data _ (by omega)]
    simp only [List.get_eq_getElem]
    congr 2 <;> congr 1 <;> omega

theorem rsiGainsLosses_eq (data : List Candle) (period : Nat)
    (h : period + 1 ≤ data.length) :
    rsiGainsLosses data period = (rsiSpec.G data period, rsiSpec.L data period) := by
  unfold rsiGainsLosses rsiSpec.G rsiSpec.L
  rw [foldl_rsiStep, range_changes_eq data period h]
  simp

theorem rsiSpec.G_nonneg (data : List Candle) (period : Nat) : 0 ≤ rsiSpec.G data period := by
  unfold rsiSpec.G
  apply List.sum_nonneg
  intro x hx
  simpa using (List.mem_filter.mp hx).2

theorem rsiSpec.L_nonneg (data : List Candle) (period : Nat) : 0 ≤ rsiSpec.L data period := by
  unfold rsiSpec.L
  apply List.sum_nonneg
  intro x hx
  obtain ⟨c, -, rfl⟩ := List.mem_map.mp hx
  exact abs_nonneg c

theorem rsi_in_range_any_period (data : List Candle) (period : Nat) :
    0 ≤ calculateRSI data period ∧ calculateRSI data period ≤ 100 := by
  unfold calculateRSI
  by_cases h : data.length < period + 1
  · simp only [h, if_true]
    norm_num
  · simp only [h, if_false]
    rw [rsiGainsLosses_eq data period (by omega)]
    have hG := rsiSpec.G_nonneg data period
    have hL := rsiSpec.L_nonneg data period
    by_cases h0 : rsiSpec.L data period = 0
    · simp only [h0, if_true]
      norm_num
    · simp only [h0, if_false]
      have hLpos : 0 < rsiSpec.L data period := lt_of_le_of_ne hL (Ne.symm h0)
      have hrs : 0 ≤ rsiSpec.G data period / rsiSpec.L data period := div_nonneg hG hL
      have hden : (0 : ℚ) < 1 + rsiSpec.G data period / rsiSpec.L data period := by linarith
      have h1 : 0 ≤ 100 / (1 + rsiSpec.G data period / rsiSpec.L data period) :=
        div_nonneg (by norm_num) hden.le
      have h2 : 100 / (1 + rsiSpec.G data period / rsiSpec.L data period) ≤ 100 := by
        rw [div_le_iff₀ hden]
        nlinarith
      constructor <;> linarith

/-- C7: for every candle sequence, of any length and with any closes,
`calculateRSI` with the default period 14 returns a value in `[0, 100]`. -/
theorem calculateRSI_range (data : List Candle) :
    0 ≤ calculateRSI data 14 ∧ calculateRSI data 14 ≤ 100 :=
  rsi_in_range_any_period data 14

theorem foldl_max_ge_init (xs : List ℚ) (a : ℚ) : a ≤ xs.foldl max a := by
  induction xs generalizing a with
  | nil => exact le_refl a
  | cons x rest ih => exact le_trans (le_max_left a x) (ih (max a x))

theorem foldl_max_ge_mem (xs : List ℚ) (a y : ℚ) (hy : y ∈ xs) : y ≤ xs.foldl max a := by
  induction xs generalizing a with
  | nil => cases hy
  | cons x rest ih =>
    rcases List.mem_cons.mp hy with h | h
    · subst h
      exact le_trans (le_max_right a y) (foldl_max_ge_init rest (max a y))
    · exact ih (max a x) h

theorem foldl_min_le_init (xs : List ℚ) (a : ℚ) : xs.foldl min a ≤ a := by
  induction xs generalizing a with
  | nil => exact le_refl a
  | cons x rest ih => exact le_trans (ih (min a x)) (min_le_left a x)

theorem foldl_min_le_mem (xs : List ℚ) (a y : ℚ) (hy : y ∈ xs) : xs.foldl min a ≤ y := by
  induction xs generalizing a with
  | nil => cases hy
  | cons x rest ih =>
    rcases List.mem_cons.mp hy with h | h
    · subst h
      exact le_trans (foldl_min_le_init rest (min a y)) (min_le_right a y)
    · exact ih (min a x) h

theorem le_mathMax (xs : List ℚ) (y : ℚ) (hy : y ∈ xs) : y ≤ mathMax xs := by
  cases xs with
  | nil => cases hy
  | cons x rest =>
    rcases List.mem_cons.mp hy with h | h
    · subst h
      exact foldl_max_ge_init rest y
    · exact foldl_max_ge_mem rest x y h

theorem mathMin_le (xs : List ℚ) (y : ℚ) (hy : y ∈ xs) : mathMin xs ≤ y := by
  cases xs with
  | nil => cases hy
  | cons x rest =>
    rcases List.mem_cons.mp hy with h | h
    · subst h
      exact foldl_min_le_init rest y
    · exact foldl_min_le_mem rest x y h

/-- The last candle of a sequence longer than the (positive) period lies in
the window of `getHighLow`, so its close is between the window's low and
high when it is well formed. -/
theorem getHighLow_bounds_last (l : List Candle) (period : Nat) (hp : 0 < period)
    (hne : l ≠ []) (hwf : (l.getLast hne).WellFormed) :
    (calculateStochastic.getHighLow l period).2 ≤ (l.getLast hne).close ∧
      (l.getLast hne).close ≤ (calculateStochastic.getHighLow l period).1 := by
  unfold calculateStochastic.getHighLow
  rw [slice1_neg l period hp]
  have hlen : 0 < l.length := List.length_pos.mpr hne
  have hmem : l.getLast hne ∈ l.drop (l.length - period) := by
    have hne' : l.drop (l.length - period) ≠ [] := by
      intro h0
      have := congrArg List.length h0
      simp at this
      omega
    rw [← List.getLast_drop hne']
    exact List.getLast_mem hne'
  constructor
  · exact le_trans (mathMin_le _ _ (List.mem_map.mpr ⟨_, hmem, rfl⟩)) hwf.1
  · exact le_trans hwf.2 (le_mathMax _ _ (List.mem_map.mpr ⟨_, hmem, rfl⟩))

theorem closeAt_last (l : List Candle) (hne : l ≠ []) :
    closeAt l (l.length - 1) = (l.getLast hne).close := by
  unfold closeAt
  rw [List.getLast_eq_getElem]
  have hlen : 0 < l.length := List.length_pos.mpr hne
  rw [List.get?_eq_get (by omega)]
  rfl

theorem kValue_range (data : List Candle) (period i : Nat) (hp : 0 < period)
    (hwf : ∀ c ∈ data, Candle.WellFormed c) :
    0 ≤ calculateStochastic.kValue data period i ∧
      calculateStochastic.kValue data period i ≤ 100 := by
  unfold calculateStochastic.kValue
  by_cases h : data.length > period + i
  · simp only [h, if_true]
    rw [slice2_zero_sub data i (by omega)]
    have hne : data.take (data.length - i) ≠ [] := by
      intro h0
      have := congrArg List.length h0
      simp at this
      omega
    have hwf' : ((data.take (data.length - i)).getLast hne).WellFormed :=
      hwf _ (List.mem_of_mem_take (List.getLast_mem hne))
    obtain ⟨hlo, hhi⟩ := getHighLow_bounds_last _ period hp hne hwf'
    rw [closeAt_last _ hne]
    generalize (calculateStochastic.getHighLow (data.take (data.length - i)) period) = hl at *
    generalize ((data.take (data.length - i)).getLast hne).close = c at *
    by_cases hne2 : hl.1 ≠ hl.2
    · rw [if_pos hne2]
      have hpos : 0 < hl.1 - hl.2 := by
        have : hl.2 ≤ hl.1 := le_trans hlo hhi
        have := lt_of_le_of_ne this (Ne.symm hne2)
        linarith
      constructor
      · apply mul_nonneg _ (by norm_num)
        apply div_nonneg _ hpos.le
        linarith
      · rw [div_mul_eq_mul_div, div_le_iff₀ hpos]
        nlinarith
    · rw [if_neg hne2]
      norm_num
  · simp only [h, if_false]
    norm_num

theorem calculateStochastic_default_eq (data : List Candle) (h : 14 ≤ data.length) :
    calculateStochastic data 14 3 3 = some
      (if (calculateStochastic.getHighLow data 14).1 = (calculateStochastic.getHighLow data 14).2
        then ⟨50, 50⟩
        else
          ⟨(calculateStochastic.kValue data 14 0 + calculateStochastic.kValue data 14 1
              + calculateStochastic.kValue data 14 2) / 3,
           (calculateStochastic.kValue data 14 0 + calculateStochastic.kValue data 14 1
              + calculateStochastic.kValue data 14 2) / 3⟩) := by
  have hne : data ≠ [] := by
    intro h0; rw [h0] at h; simp at h
  have h1 : ¬ data.length < 14 := by omega
  have hr : List.range 3 = [0, 1, 2] := rfl
  unfold calculateStochastic
  simp only [h1, if_false, lastClose_of_ne_nil data hne, Option.map_some', hr, List.map_cons,
    List.map_nil, jsSum, List.foldl_cons, List.foldl_nil, List.length_cons, List.length_nil,
    List.getD_cons_zero, List.getD_cons_succ, zero_add, Nat.reduceAdd, gt_iff_lt,
    Nat.reduceLT, if_true, Nat.cast_ofNat]

/-- C8 (as amended): when every candle has `low ≤ close ≤ high`, both outputs
`k` and `d` of `calculateStochastic` (period 14, smoothK 3, smoothD 3) lie in
`[0, 100]`. -/
theorem calculateStochastic_range (data : List Candle)
    (hwf : ∀ c ∈ data, c.low ≤ c.close ∧ c.close ≤ c.high) :
    ∃ r, calculateStochastic data 14 3 3 = some r ∧
      0 ≤ r.k ∧ r.k ≤ 100 ∧ 0 ≤ r.d ∧ r.d ≤ 100 := by
  by_cases h : data.length < 14
  · refine ⟨⟨50, 50⟩, ?_, ?_⟩
    · simp [calculateStochastic, h]
    · norm_num
  · rw [calculateStochastic_default_eq data (by omega)]
    refine ⟨_, rfl, ?_⟩
    obtain ⟨a0, b0⟩ := kValue_range data 14 0 (by norm_num) hwf
    obtain ⟨a1, b1⟩ := kValue_range data 14 1 (by norm_num) hwf
    obtain ⟨a2, b2⟩ := kValue_range data 14 2 (by norm_num) hwf
    split_ifs
    · norm_num
    · refine ⟨?_, ?_, ?_, ?_⟩ <;> simp only <;> linarith

/-- Witness of C8 (as amended) on the thirty rising candles. -/
theorem calculateStochastic_range_witness :
    (∀ c ∈ risingCandles, c.low ≤ c.close ∧ c.close ≤ c.high) ∧
    ∃ r, calculateStochastic risingCandles 14 3 3 = some r ∧
      0 ≤ r.k ∧ r.k ≤ 100 ∧ 0 ≤ r.d ∧ r.d ≤ 100 :=
  ⟨by decide!, calculateStochastic_range risingCandles (by decide!)⟩

set_option maxRecDepth 100000 in
/-- Counterexample to C8 as stated: fifteen candles whose last close (10) is
above every high (2) give `k = d = 200`. -/
theorem calculateStochastic_exceeds_100 :
    calculateStochastic illFormedCandles 14 3 3 = some { k := 200, d := 200 } ∧
    ¬ ((200 : ℚ) ≤ 100) := by
  decide!

theorem sqrtApprox_nonneg (x : ℚ) : 0 ≤ sqrtApprox x := by
  unfold sqrtApprox
  positivity

theorem jsSum_nonneg (xs : List ℚ) (h : ∀ x ∈ xs, 0 ≤ x) : 0 ≤ jsSum xs := by
  rw [jsSum_eq_sum]
  exact List.sum_nonneg h

/-- C9: with a `Math.sqrt` that is non-negative on non-negative arguments,
the bands of `calculateBollingerBands` (period 20, multiplier 2) satisfy
`upper ≥ middle ≥ lower` on every candle sequence; on fewer than 20 candles
the result is the all-zero fallback. -/
theorem calculateBollingerBands_order (mathSqrt : ℚ → ℚ)
    (hsqrt : ∀ x, 0 ≤ x → 0 ≤ mathSqrt x) (data : List Candle) :
    (calculateBollingerBands mathSqrt data 20 2).upper
        ≥ (calculateBollingerBands mathSqrt data 20 2).middle ∧
      (calculateBollingerBands mathSqrt data 20 2).middle
        ≥ (calculateBollingerBands mathSqrt data 20 2).lower ∧
      (data.length < 20 →
        calculateBollingerBands mathSqrt data 20 2 = { upper := 0, middle := 0, lower := 0 }) := by
  unfold calculateBollingerBands
  by_cases h : data.length < 20
  · simp [h]
  · simp only [h, if_false, ge_iff_le, false_imp_iff, and_true]
    have hv : 0 ≤ mathSqrt (jsSum (List.map
        (fun price => (price - jsSum (List.map (fun d => d.close)
          (slice1 data (-((20 : Nat) : Int)))) / ((20 : Nat) : ℚ)) ^ 2)
        (List.map (fun d => d.close) (slice1 data (-((20 : Nat) : Int))))) / ((20 : Nat) : ℚ)) := by
      apply hsqrt
      apply div_nonneg _ (by norm_num)
      apply jsSum_nonneg
      intro x hx
      obtain ⟨p, -, rfl⟩ := List.mem_map.mp hx
      exact sq_nonneg _
    constructor <;> linarith

set_option maxRecDepth 100000 in
/-- Witness of C9 on the thirty rising candles, with the executable square
root: the bands are `622.0325`, `610.5`, `598.9675`. -/
theorem calculateBollingerBands_order_witness :
    (∀ x, 0 ≤ x → 0 ≤ sqrtApprox x) ∧
    calculateBollingerBands sqrtApprox risingCandles 20 2
      = { upper := 248813 / 400, middle := 1221 / 2, lower := 239587 / 400 } ∧
    (calculateBollingerBands sqrtApprox risingCandles 20 2).upper
        ≥ (calculateBollingerBands sqrtApprox risingCandles 20 2).middle ∧
      (calculateBollingerBands sqrtApprox risingCandles 20 2).middle
        ≥ (calculateBollingerBands sqrtApprox risingCandles 20 2).lower ∧
      (risingCandles.length < 20 →
        calculateBollingerBands sqrtApprox risingCandles 20 2
          = { upper := 0, middle := 0, lower := 0 }) :=
  ⟨fun x _ => sqrtApprox_nonneg x, by decide!,
    calculateBollingerBands_order sqrtApprox (fun x _ => sqrtApprox_nonneg x) risingCandles⟩

/-- C10: `calculateRSI` with period 14 returns 50 on fewer than 15 candles;
otherwise, with `G` the sum of the non-negative and `L` the sum of the
magnitudes of the negative changes among the last 14 close-to-close changes,
it returns 100 when `L = 0` and `100 - 100 / (1 + G / L)` when `L > 0`
(and `L` is never negative). -/
theorem calculateRSI_spec (data : List Candle) :
    (data.length < 15 → calculateRSI data 14 = 50) ∧
    (15 ≤ data.length → rsiSpec.L data 14 = 0 → calculateRSI data 14 = 100) ∧
    (15 ≤ data.length → 0 < rsiSpec.L data 14 →
      calculateRSI data 14 = 100 - 100 / (1 + rsiSpec.G data 14 / rsiSpec.L data 14)) ∧
    0 ≤ rsiSpec.L data 14 := by
  refine ⟨?_, ?_, ?_, rsiSpec.L_nonneg data 14⟩
  · intro h
    unfold calculateRSI
    simp only [h, if_true]
  · intro h h0
    unfold calculateRSI
    have h1 : ¬ data.length < 14 + 1 := by omega
    simp only [h1, if_false]
    rw [rsiGainsLosses_eq data 14 (by omega)]
    simp only [h0, if_true]
  · intro h h0
    unfold calculateRSI
    have h1 : ¬ data.length < 14 + 1 := by omega
    simp only [h1, if_false]
    rw [rsiGainsLosses_eq data 14 (by omega)]
    simp only [ne_of_gt h0, if_false]

set_option maxRecDepth 100000 in
/-- Witness of C10: ten candles (fallback), the rising candles (`L = 0`) and
the zigzag candles (`G = 21`, `L = 7`, RSI `75`). -/
theorem calculateRSI_spec_witness :
    calculateRSI (risingCandles.take 10) 14 = 50 ∧
    calculateRSI risingCandles 14 = 100 ∧
    (rsiSpec.G zigzagCandles 14 = 21 ∧ rsiSpec.L zigzagCandles 14 = 7 ∧
      calculateRSI zigzagCandles 14 = 100 - 100 / (1 + rsiSpec.G zigzagCandles 14 / rsiSpec.L zigzagCandles 14)) :=
  ⟨(calculateRSI_spec (risingCandles.take 10)).1 (by decide),
   (calculateRSI_spec risingCandles).2.1 (by decide) (by decide!),
   by decide!, by decide!,
   (calculateRSI_spec zigzagCandles).2.2.1 (by decide) (by decide!)⟩

/-! ## Indicator engine: EMA, MACD, stochastic smoothing, volume -/

theorem foldl_add_closeAt (data : List Candle) (idxs : List Nat) (s : ℚ) :
    idxs.foldl (fun s i => s + closeAt data i) s = s + (idxs.map (closeAt data)).sum := by
  induction idxs generalizing s with
  | nil => simp
  | cons i rest ih =>
    rw [List.foldl_cons, ih]
    simp [add_assoc]

theorem range_closeAt_eq (data : List Candle) (period : Nat) (h : period ≤ data.length) :
    (List.range' (data.length - period) period).map (closeAt data)
      = (data.drop (data.length - period)).map (fun c => c.close) := by
  apply List.ext_getElem
  · simp
    omega
  · intro j h1 h2
    simp only [List.length_map, List.length_range'] at h1
    simp only [List.getElem_map, List.getElem_range', List.getElem_drop]
    rw [closeAt_eq data _ (by omega)]
    simp only [List.get_eq_getElem]
    congr 2
    omega

theorem calculateSMA_eq_mean (data : List Candle) (period : Nat) (h : period ≤ data.length) :
    calculateSMA data period
      = some (((data.drop (data.length - period)).map (fun c => c.close)).sum / period) := by
  unfold calculateSMA
  have h1 : ¬ data.length < period := by omega
  simp only [h1, if_false]
  rw [foldl_add_closeAt, range_closeAt_eq data period h, zero_add]

theorem calculateEMA_eq (data : List Candle) (period : Nat) (h : period ≤ data.length) :
    calculateEMA data period
      = some (calculateMACD.calculateEMA (data.map (fun d => d.close)) period) := by
  unfold calculateEMA calculateMACD.calculateEMA
  have h1 : ¬ data.length < period := by omega
  simp only [h1, if_false]

theorem calculateMACD.calculateEMA_append (prices : List ℚ) (period : Nat)
    (h : period ≤ prices.length) (x : ℚ) :
    calculateMACD.calculateEMA (prices ++ [x]) period
      = x * (2 / ((period : ℚ) + 1))
        + calculateMACD.calculateEMA prices period * (1 - 2 / ((period : ℚ) + 1)) := by
  unfold calculateMACD.calculateEMA
  simp only [slice2_zero_natCast]
  rw [List.take_append_of_le_length h, List.drop_append_of_le_length h, List.foldl_append]
  simp

/-- C11: for `p ≥ 1` and non-empty `data`, `calculateEMA data p` is the last
close when `data` has fewer than `p` candles, the arithmetic mean of the
closes (which is `calculateSMA data p`) when it has exactly `p`, and with at
least `p` candles appending a candle `c` gives
`c.close * k + calculateEMA data p * (1 - k)` with `k = 2 / (p + 1)`. -/
theorem calculateEMA_spec (data : List Candle) (p : Nat) (_hp : 1 ≤ p) (hne : data ≠ []) :
    (data.length < p → calculateEMA data p = some (data.getLast hne).close) ∧
    (data.length = p →
      calculateEMA data p = some ((data.map (fun c => c.close)).sum / p) ∧
      calculateEMA data p = calculateSMA data p) ∧
    (p ≤ data.length → ∀ c : Candle, ∃ e, calculateEMA data p = some e ∧
      calculateEMA (data ++ [c]) p
        = some (c.close * (2 / ((p : ℚ) + 1)) + e * (1 - 2 / ((p : ℚ) + 1)))) := by
  refine ⟨?_, ?_, ?_⟩
  · intro h
    unfold calculateEMA
    simp only [h, if_true]
    exact lastClose_of_ne_nil data hne
  · intro h
    have hmean : calculateEMA data p = some ((data.map (fun c => c.close)).sum / p) := by
      rw [calculateEMA_eq data p (by omega)]
      unfold calculateMACD.calculateEMA
      rw [slice2_zero_natCast, jsSum_eq_sum]
      have hl : (data.map (fun d => d.close)).length ≤ p := by simp; omega
      rw [List.take_of_length_le hl, List.drop_of_length_le hl]
      rfl
    refine ⟨hmean, ?_⟩
    rw [hmean, calculateSMA_eq_mean data p (by omega)]
    have : data.length - p = 0 := by omega
    rw [this, List.drop_zero]
  · intro h c
    refine ⟨_, calculateEMA_eq data p h, ?_⟩
    rw [calculateEMA_eq (data ++ [c]) p (by simp; omega)]
    rw [List.map_append, List.map_singleton]
    rw [calculateMACD.calculateEMA_append _ p (by simp; omega)]

/-- Witness of C11: five, nine and thirty of the rising candles with
period 9. -/
theorem calculateEMA_spec_witness :
    (∃ hne : risingCandles.take 5 ≠ [],
      calculateEMA (risingCandles.take 5) 9
        = some ((risingCandles.take 5).getLast hne).close) ∧
    (calculateEMA (risingCandles.take 9) 9
        = some (((risingCandles.take 9).map (fun c => c.close)).sum / (9 : Nat)) ∧
      calculateEMA (risingCandles.take 9) 9 = calculateSMA (risingCandles.take 9) 9) ∧
    (∃ e, calculateEMA risingCandles 9 = some e ∧
      calculateEMA (risingCandles ++ [⟨30, 620, 622, 619, 621, 130⟩]) 9
        = some ((621 : ℚ) * (2 / (((9 : Nat) : ℚ) + 1)) + e * (1 - 2 / (((9 : Nat) : ℚ) + 1)))) :=
  ⟨⟨by decide, (calculateEMA_spec (risingCandles.take 5) 9 (by decide) (by decide)).1
      (by decide)⟩,
   (calculateEMA_spec (risingCandles.take 9) 9 (by decide) (by decide)).2.1 (by decide),
   (calculateEMA_spec risingCandles 9 (by decide) (by decide)).2.2 (by decide)
      ⟨30, 620, 622, 619, 621, 130⟩⟩

theorem slice2_zero_neg_one {α : Type} (l : List α) : slice2 l 0 (-1) = l.dropLast := by
  unfold slice2
  have h0 : (min (0 : Int) (l.length : Int)).toNat = 0 := by omega
  have h1 : ((-1 : Int) < 0) := by omega
  simp only [h1, if_true, lt_irrefl, if_false, h0, List.drop_zero]
  rw [List.dropLast_eq_take]
  congr 1
  omega

theorem macdValues_dropLast (prices : List ℚ) (h : 27 ≤ prices.length) :
    macdValues prices.dropLast = (macdValues prices).dropLast := by
  unfold macdValues
  have hl : prices.dropLast.length - 26 + 1 = prices.length - 26 := by
    rw [List.length_dropLast]; omega
  have hr : prices.length - 26 + 1 = (prices.length - 26) + 1 := rfl
  rw [hl, hr, List.range_succ, List.map_append, List.map_singleton, List.dropLast_concat]
  apply List.map_congr_left
  intro i hi
  have hi' : i < prices.length - 26 := List.mem_range.mp hi
  have ht : slice2 prices.dropLast 0 (26 + (i : Int)) = slice2 prices 0 (26 + (i : Int)) := by
    have e : (26 + (i : Int)) = ((26 + i : Nat) : Int) := by push_cast; ring
    rw [e, slice2_zero_natCast, slice2_zero_natCast, List.dropLast_eq_take, List.take_take]
    congr 1
    omega
  rw [ht]

theorem macdValues_length (prices : List ℚ) : (macdValues prices).length = prices.length - 26 + 1 := by
  unfold macdValues
  simp

theorem macdValues_getD_pred (prices : List ℚ) (h : 27 ≤ prices.length) :
    (macdValues prices).getD ((macdValues prices).length - 2) 0
      = calculateMACD.calculateEMA prices.dropLast 12
        - calculateMACD.calculateEMA prices.dropLast 26 := by
  rw [macdValues_length]
  unfold macdValues
  have hlt : prices.length - 26 + 1 - 2 < prices.length - 26 + 1 := by omega
  rw [List.getD_eq_getElem _ _ (by simpa using hlt)]
  simp only [List.getElem_map, List.getElem_range]
  have e : (26 + ((prices.length - 26 + 1 - 2 : Nat) : Int)) = ((prices.length - 1 : Nat) : Int) := by
    omega
  rw [e, slice2_zero_natCast, List.dropLast_eq_take]

theorem emaRow_eq_of_le (values : List ℚ) (period : Nat) (h : period ≤ values.length) :
    emaRow values period = calculateMACD.calculateEMA values period := by
  unfold emaRow calculateMACD.calculateEMA
  have h1 : ¬ values.length < period := by omega
  simp only [h1, if_false]
  rw [slice2_zero_natCast, jsSum_eq_sum]

theorem macdSeries_eq_macdValues (closes : List ℚ) (h : 26 ≤ closes.length) :
    macdSeries closes = macdValues closes := by
  unfold macdSeries macdValues
  have hn : closes.length - 25 = closes.length - 26 + 1 := by omega
  rw [hn]
  apply List.map_congr_left
  intro i hi
  have hi' : i < closes.length - 26 + 1 := List.mem_range.mp hi
  have e : (26 + (i : Int)) = ((26 + i : Nat) : Int) := by push_cast; ring
  have hl : (closes.take (26 + i)).length = 26 + i := by
    rw [List.length_take]; omega
  rw [e, slice2_zero_natCast, emaRow_eq_of_le _ 12 (by omega), emaRow_eq_of_le _ 26 (by omega)]

/-- From 34 candles on the MACD series has at least 9 values and the `signal`
of `calculateMACD` is its EMA(9) by the EMA row; `histogram = macd − signal`
on every input. -/
theorem calculateMACD_signal_long_series (data : List Candle) (h : 34 ≤ data.length) :
    (calculateMACD data).signal = emaRow (macdSeries (data.map (fun c => c.close))) 9 ∧
    (calculateMACD data).histogram = (calculateMACD data).macd - (calculateMACD data).signal := by
  have h1 : ¬ data.length < 26 := by omega
  have hc : 26 ≤ (data.map (fun c => c.close)).length := by simp; omega
  rw [macdSeries_eq_macdValues _ hc, emaRow_eq_of_le _ 9 (by rw [macdValues_length]; simp; omega)]
  unfold calculateMACD
  simp only [h1, if_false, and_self]

set_option maxRecDepth 100000 in
/-- C12 (defect shown on thirty candles): the MACD series has five values,
all 7, so its EMA(9) by the EMA row is the fallback 7; `calculateMACD`
returns the sum of the five values divided by 9 as `signal`, and a
`histogram` of `28 / 9` instead of `0`. -/
theorem calculateMACD_signal_short_series :
    26 ≤ risingCandles.length ∧
    macdSeries (risingCandles.map (fun c => c.close)) = [7, 7, 7, 7, 7] ∧
    emaRow (macdSeries (risingCandles.map (fun c => c.close))) 9 = 7 ∧
    (calculateMACD risingCandles).macd = 7 ∧
    (calculateMACD risingCandles).signal = 35 / 9 ∧
    (calculateMACD risingCandles).signal
      ≠ emaRow (macdSeries (risingCandles.map (fun c => c.close))) 9 ∧
    (calculateMACD risingCandles).histogram = 28 / 9 := by
  decide!

/-- C13: on at least 27 candles `previousHistogram` is the `histogram` that
`calculateMACD` returns for the same candles without the last one. -/
theorem calculateMACD_previousHistogram (data : List Candle) (h : 27 ≤ data.length) :
    (calculateMACD data).previousHistogram = (calculateMACD data.dropLast).histogram := by
  have h1 : ¬ data.length < 26 := by omega
  have h2 : ¬ data.dropLast.length < 26 := by rw [List.length_dropLast]; omega
  have hp : 27 ≤ (data.map (fun d => d.close)).length := by simpa using h
  have hmv : (macdValues (data.map (fun d => d.close))).length ≥ 2 := by
    rw [macdValues_length]; omega
  unfold calculateMACD
  simp only [h1, h2, if_false, hmv, if_true]
  rw [macdValues_getD_pred _ hp, slice2_zero_neg_one, ← macdValues_dropLast _ hp,
    List.map_dropLast]

/-- Witness of C13 on the thirty rising candles. -/
theorem calculateMACD_previousHistogram_witness :
    27 ≤ risingCandles.length ∧
    (calculateMACD risingCandles).previousHistogram
      = (calculateMACD risingCandles.dropLast).histogram :=
  ⟨by decide, calculateMACD_previousHistogram risingCandles (by decide)⟩

theorem kValue_eq_rawK (data : List Candle) (i : Nat) (h : data.length > 14 + i)
    (hne : (calculateStochastic.getHighLow (data.take (data.length - i)) 14).1
      ≠ (calculateStochastic.getHighLow (data.take (data.length - i)) 14).2) :
    calculateStochastic.kValue data 14 i = stochSpec.rawK (data.take (data.length - i)) := by
  have hnil : data.take (data.length - i) ≠ [] := by
    intro h0
    have := congrArg List.length h0
    simp at this
    omega
  unfold calculateStochastic.kValue
  simp only [h, if_true]
  rw [slice2_zero_sub data i (by omega), if_pos hne, closeAt_last _ hnil]
  unfold stochSpec.rawK calculateStochastic.getHighLow
  rw [slice1_neg _ 14 (by norm_num), List.getLast?_eq_getLast _ hnil]
  rfl

/-- From 17 candles on, when the three most recent 14-candle windows all
have highest high ≠ lowest low, `calculateStochastic` returns the mean of
the three most recent raw %K values as `k` (and as `d`). -/
theorem calculateStochastic_eq_spec_of_17 (data : List Candle) (h : 17 ≤ data.length)
    (h0 : (calculateStochastic.getHighLow data 14).1
      ≠ (calculateStochastic.getHighLow data 14).2)
    (h1 : (calculateStochastic.getHighLow data.dropLast 14).1
      ≠ (calculateStochastic.getHighLow data.dropLast 14).2)
    (h2 : (calculateStochastic.getHighLow data.dropLast.dropLast 14).1
      ≠ (calculateStochastic.getHighLow data.dropLast.dropLast 14).2) :
    calculateStochastic data 14 3 3
      = some { k := stochSpec.k data, d := stochSpec.k data } := by
  have e0 : data.take (data.length - 0) = data := by simp
  have e1 : data.take (data.length - 1) = data.dropLast := (List.dropLast_eq_take data).symm
  have e2 : data.take (data.length - 2) = data.dropLast.dropLast := by
    rw [List.dropLast_eq_take data.dropLast, List.dropLast_eq_take data, List.take_take,
      List.length_take]
    congr 1
    omega
  rw [calculateStochastic_default_eq data (by omega), if_neg h0]
  rw [kValue_eq_rawK data 0 (by omega) (by rw [e0]; exact h0),
    kValue_eq_rawK data 1 (by omega) (by rw [e1]; exact h1),
    kValue_eq_rawK data 2 (by omega) (by rw [e2]; exact h2), e0, e1, e2]
  rfl

set_option maxRecDepth 100000 in
/-- C14 (defect shown on sixteen candles): the three most recent raw %K
values are `800/9`, `700/9`, `800/9`, each over a full 14-candle window, with
mean `2300/27`; `calculateStochastic` replaces the third by 50 and returns
`k = 650/9`.  On fourteen candles it returns 50 although the raw value of
the only full window is `800/9`. -/
theorem calculateStochastic_drops_full_window :
    14 ≤ (zigzagCandles.take 16).length ∧
    (calculateStochastic.getHighLow (zigzagCandles.take 16) 14).1
      ≠ (calculateStochastic.getHighLow (zigzagCandles.take 16) 14).2 ∧
    [stochSpec.rawK (zigzagCandles.take 16), stochSpec.rawK (zigzagCandles.take 16).dropLast,
      stochSpec.rawK (zigzagCandles.take 16).dropLast.dropLast] = [800 / 9, 700 / 9, 800 / 9] ∧
    stochSpec.k (zigzagCandles.take 16) = 2300 / 27 ∧
    (List.range 3).map (calculateStochastic.kValue (zigzagCandles.take 16) 14)
      = [800 / 9, 700 / 9, 50] ∧
    calculateStochastic (zigzagCandles.take 16) 14 3 3 = some { k := 650 / 9, d := 650 / 9 } ∧
    stochSpec.rawK (zigzagCandles.take 14) = 800 / 9 ∧
    calculateStochastic (zigzagCandles.take 14) 14 3 3 = some { k := 50, d := 50 } := by
  decide!

theorem analyzeVolume_changePercent (data : List Candle) (h : 10 ≤ data.length) :
    ∃ avgRecentVolume, (analyzeVolume data).changePercent
      = ((avgRecentVolume - analyzeVolume.avgPrevVolume data)
          / analyzeVolume.avgPrevVolume data) * 100 := by
  have h1 : ¬ data.length < 10 := by omega
  unfold analyzeVolume analyzeVolume.avgPrevVolume
  simp only [h1, if_false]
  exact ⟨_, rfl⟩

set_option maxRecDepth 100000 in
/-- C15 (defect shown on ten candles): the five candles before the last five
have volume 0, so `avgPrevVolume`, the divisor of `changePercent`, is 0. -/
theorem analyzeVolume_zero_divisor :
    idleThenTradedCandles ≠ [] ∧ 10 ≤ idleThenTradedCandles.length ∧
    analyzeVolume.avgPrevVolume idleThenTradedCandles = 0 ∧
    (analyzeVolume idleThenTradedCandles).trend = VolumeTrend.increasing := by
  decide!

/-! ## Position lifecycle: ledger, order collections, exit check -/

set_option maxRecDepth 100000 in
/-- C16 (defect shown on `BNBUSDT`): lines 1023-1025 give base `USDT` and
quote `BNB` for the pair configured as base `BNB`, quote `USDT`; a filled
BUY of 1 at 100 from the default ledger gives `BNB = -99`, `USDT = 1001`
instead of `BNB = 2`, `USDT = 900`.  The four pairs quoted in BNB get the
configured assets. -/
theorem checkOrderStatus_BNBUSDT_assets_swapped :
    baseQuote "BNBUSDT" = ("USDT", "BNB") ∧
    bnbusdtFilled.balance "BNB" = some (-99) ∧ bnbusdtFilled.balance "USDT" = some 1001 ∧
    bnbusdtFilled.balance "BNB" ≠ some (1 + 1) ∧
    bnbusdtFilled.balance "USDT" ≠ some (1000 - 1 * 100) ∧
    defaultTradingPairs.map (fun p => decide (baseQuote p.1 = p.2))
      = [false, true, true, true, true] := by
  decide!

theorem checkOrderStatus.loop_kept (reply : Order → StatusReply) (pending kept : List Order)
    (completedOrders : List Order) (balance : Ledger) :
    (checkOrderStatus.loop reply pending kept completedOrders balance).1
      = kept ++ pending.filter (checkOrderStatus.stays reply) := by
  induction pending generalizing kept completedOrders balance with
  | nil => simp [checkOrderStatus.loop]
  | cons o rest ih =>
    unfold checkOrderStatus.loop
    cases hr : reply o with
    | failed =>
      simp only [ih]
      simp [checkOrderStatus.stays, hr]
    | status filled =>
      by_cases hc : filled = true ∧ o.status ≠ OrderStatus.COMPLETED
      · simp only [hc, and_self, if_true, ih, ne_eq, not_false_eq_true]
        simp [checkOrderStatus.stays, hr, hc]
      · simp only [hc, if_false, ih]
        simp [checkOrderStatus.stays, hr, hc]

theorem checkOrderStatus.loop_of_stays (reply : Order → StatusReply)
    (pending kept : List Order) (completedOrders : List Order) (balance : Ledger)
    (h : ∀ o ∈ pending, checkOrderStatus.stays reply o = true) :
    checkOrderStatus.loop reply pending kept completedOrders balance
      = (kept ++ pending, completedOrders, balance) := by
  induction pending generalizing kept with
  | nil => simp [checkOrderStatus.loop]
  | cons o rest ih =>
    have ho := h o (List.mem_cons_self o rest)
    have hrest : ∀ x ∈ rest, checkOrderStatus.stays reply x = true :=
      fun x hx => h x (List.mem_cons_of_mem o hx)
    unfold checkOrderStatus.loop
    cases hr : reply o with
    | failed =>
      simp only [ih _ hrest]
      simp
    | status filled =>
      have hc : ¬ (filled = true ∧ o.status ≠ OrderStatus.COMPLETED) := by
        intro hcon
        simp [checkOrderStatus.stays, hr, hcon] at ho
      simp only [hc, if_false, ih _ hrest]
      simp

/-- C17: a second run of `checkOrderStatus` with the same answers of the
exchange changes nothing: the ledger, the performance counters,
`activeOrders` and `completedOrders` are as the first run left them. -/
theorem checkOrderStatus_idempotent (reply : Order → StatusReply) (st : TradingStatus) :
    checkOrderStatus reply (checkOrderStatus reply st) = checkOrderStatus reply st := by
  have hk := checkOrderStatus.loop_kept reply st.activeOrders [] st.completedOrders st.balance
  have hstay : ∀ o ∈ (checkOrderStatus.loop reply st.activeOrders [] st.completedOrders
      st.balance).1, checkOrderStatus.stays reply o = true := by
    intro o ho
    rw [hk] at ho
    simp only [List.nil_append] at ho
    exact (List.mem_filter.mp ho).2
  unfold checkOrderStatus
  simp only
  rw [checkOrderStatus.loop_of_stays reply _ [] _ _ hstay]
  simp

theorem removeFirst_append_self (pat b : List Char) (hpat : pat ≠ [])
    (h : ∀ i, i < b.length → ((b ++ pat).drop i).take pat.length ≠ pat) :
    removeFirst pat (b ++ pat) = b := by
  induction b with
  | nil =>
    cases pat with
    | nil => exact absurd rfl hpat
    | cons c cs => simp [removeFirst]
  | cons c cs ih =>
    have h0 := h 0 (by simp)
    simp only [List.drop_zero] at h0
    rw [List.cons_append] at h0 ⊢
    rw [removeFirst, if_neg h0]
    congr 1
    apply ih
    intro i hi
    have := h (i + 1) (by simpa using hi)
    simpa using this

theorem baseQuote_of_quotedInBNB (pair : String × String × String) (h : QuotedInBNB pair) :
    baseQuote pair.1 = (pair.2.1, pair.2.2) := by
  obtain ⟨hq, hne, hs, hocc⟩ := h
  have hdata : pair.1.data = pair.2.1.data ++ "BNB".data := by
    rw [hs, String.data_append]
  have hrm : jsReplaceEmpty pair.1 "BNB" = pair.2.1 := by
    unfold jsReplaceEmpty
    rw [hdata, removeFirst_append_self]
    · decide
    · intro i hi
      have := hocc i hi
      rw [hdata] at this
      exact this
  have hlen : (pair.2.1).length > 0 := by
    cases hb : pair.2.1 with
    | mk d =>
      cases d with
      | nil => exact absurd hb hne
      | cons c cs => simp [String.length]
  unfold baseQuote
  rw [hrm, if_pos hlen, hq]

theorem quotedInBNB_ne (pair : String × String × String) (h : QuotedInBNB pair) :
    pair.2.1 ≠ pair.2.2 := by
  obtain ⟨hq, hne, hs, hocc⟩ := h
  intro he
  rw [hq] at he
  have := hocc 0 (by rw [he]; decide)
  rw [hs, he] at this
  exact this (by decide)

theorem applyFill_quote (balance : Ledger) (order : Order) (base quote : String)
    (hbq : baseQuote order.symbol = (base, quote)) (hne : base ≠ quote) :
    applyFill balance order quote
      = (balance quote).map fun v =>
          match order.side with
          | Side.BUY => v - order.quantity * order.price
          | Side.SELL => v + order.quantity * order.price := by
  unfold applyFill
  rw [hbq]
  cases order.side <;> simp [Ledger.set, Ne.symm hne]

theorem applyFill_base (balance : Ledger) (order : Order) (base quote : String)
    (hbq : baseQuote order.symbol = (base, quote)) (hne : base ≠ quote) :
    applyFill balance order base
      = some (match order.side with
          | Side.BUY => (balance base).getD 0 + order.quantity
          | Side.SELL => (balance base).getD 0 - order.quantity) := by
  unfold applyFill
  rw [hbq]
  cases order.side <;> simp [Ledger.set, hne]

theorem applyFill_other (balance : Ledger) (order : Order) (base quote a : String)
    (hbq : baseQuote order.symbol = (base, quote)) (hb : a ≠ base) (hq : a ≠ quote) :
    applyFill balance order a = balance a := by
  unfold applyFill
  rw [hbq]
  cases order.side <;> simp [Ledger.set, hb, hq]

theorem getD_nonneg (balance : Ledger) (h : balance.NonNeg) (a : String) :
    0 ≤ (balance a).getD 0 := by
  cases hx : balance a with
  | none => simp
  | some x => simpa using h _ x hx

theorem applyFill_nonneg (pairs : List (String × String × String))
    (hpairs : ∀ pair ∈ pairs, QuotedInBNB pair) (balance : Ledger) (order : Order)
    (h : balance.NonNeg) (hc : Covered pairs balance order) :
    (applyFill balance order).NonNeg := by
  obtain ⟨pair, hmem, hsym, v, hv, hside⟩ := hc
  have hbq : baseQuote order.symbol = (pair.2.1, pair.2.2) := by
    rw [← hsym]
    exact baseQuote_of_quotedInBNB pair (hpairs pair hmem)
  have hne := quotedInBNB_ne pair (hpairs pair hmem)
  intro a w hw
  by_cases ha : a = pair.2.2
  · rw [ha, applyFill_quote balance order _ _ hbq hne, hv] at hw
    have hv0 := h _ v hv
    cases hs : order.side with
    | BUY =>
      rw [hs] at hw hside
      simp only [Option.map_some', Option.some.injEq] at hw
      rw [← hw]
      linarith [hside.2]
    | SELL =>
      rw [hs] at hw hside
      simp only [Option.map_some', Option.some.injEq] at hw
      rw [← hw]
      linarith [hside.1]
  · by_cases hb : a = pair.2.1
    · rw [hb, applyFill_base balance order _ _ hbq hne] at hw
      have hg := getD_nonneg balance h pair.2.1
      cases hs : order.side with
      | BUY =>
        rw [hs] at hw hside
        simp only [Option.some.injEq] at hw
        rw [← hw]
        linarith [hside.1]
      | SELL =>
        rw [hs] at hw hside
        simp only [Option.some.injEq] at hw
        rw [← hw]
        linarith [hside.2]
    · rw [applyFill_other balance order _ _ a hbq hb ha] at hw
      exact h a w hw

theorem covered_of_applyFill_nonneg (pairs : List (String × String × String))
    (hpairs : ∀ pair ∈ pairs, QuotedInBNB pair) (balance : Ledger) (order : Order)
    (pair : String × String × String) (v : ℚ) (hmem : pair ∈ pairs)
    (hsym : pair.1 = order.symbol) (hv : balance pair.2.2 = some v)
    (hq : 0 ≤ order.quantity) (hp : 0 ≤ order.price)
    (h : (applyFill balance order).NonNeg) : Covered pairs balance order := by
  have hbq : baseQuote order.symbol = (pair.2.1, pair.2.2) := by
    rw [← hsym]
    exact baseQuote_of_quotedInBNB pair (hpairs pair hmem)
  have hne := quotedInBNB_ne pair (hpairs pair hmem)
  refine ⟨pair, hmem, hsym, v, hv, ?_⟩
  have h1 := applyFill_quote balance order _ _ hbq hne
  have h2 := applyFill_base balance order _ _ hbq hne
  rw [hv] at h1
  cases hs : order.side with
  | BUY =>
    rw [hs] at h1
    simp only [Option.map_some'] at h1
    have := h _ _ h1
    exact ⟨hq, by linarith⟩
  | SELL =>
    rw [hs] at h2
    simp only at h2
    have := h _ _ h2
    exact ⟨mul_nonneg hq hp, by linarith⟩

theorem checkOrderStatus.loop_nonneg (pairs : List (String × String × String))
    (hpairs : ∀ pair ∈ pairs, QuotedInBNB pair) (reply : Order → StatusReply)
    (pending kept completedOrders : List Order) (balance : Ledger) (h : balance.NonNeg)
    (hc : checkOrderStatus.CoveredRun pairs reply pending balance) :
    (checkOrderStatus.loop reply pending kept completedOrders balance).2.2.NonNeg := by
  induction pending generalizing kept completedOrders balance with
  | nil => simpa [checkOrderStatus.loop] using h
  | cons x rest ih =>
    unfold checkOrderStatus.loop
    unfold checkOrderStatus.CoveredRun at hc
    cases hr : reply x with
    | failed =>
      rw [hr] at hc
      exact ih _ _ _ h hc
    | status filled =>
      rw [hr] at hc
      by_cases hf : filled = true ∧ x.status ≠ OrderStatus.COMPLETED
      · simp only [hf, and_self, if_true, ne_eq, not_false_eq_true] at hc ⊢
        exact ih _ _ _ (applyFill_nonneg pairs hpairs _ _ h hc.1) hc.2
      · simp only [hf, if_false] at hc ⊢
        exact ih _ _ _ h hc

theorem checkOrderStatus_single (reply : Order → StatusReply) (st : TradingStatus)
    (order : Order) (hact : st.activeOrders = [order])
    (hr : reply order = StatusReply.status true) (hst : order.status = OrderStatus.ACTIVE) :
    (checkOrderStatus reply st).activeOrders = [] ∧
    (checkOrderStatus reply st).completedOrders
      = limitArraySize
          (st.completedOrders ++ [{ order with status := OrderStatus.COMPLETED }]) 100 ∧
    (checkOrderStatus reply st).balance = applyFill st.balance order := by
  unfold checkOrderStatus
  rw [hact]
  unfold checkOrderStatus.loop
  rw [hr]
  simp [hst, checkOrderStatus.loop]
  rfl

theorem placeBinanceOrder_balance (config : Config) (reply : OrderReply) (symbol : String)
    (side : Side) (quantity price : ℚ) (st : TradingStatus) :
    (placeBinanceOrder config reply symbol side quantity price st).balance = st.balance := by
  unfold placeBinanceOrder
  cases reply.orderId <;> rfl

theorem checkTakeProfitStopLoss.step_balance (config : Config) (env : ExitEnv)
    (st : TradingStatus) (order : Order) :
    (checkTakeProfitStopLoss.step config env st order).balance = st.balance := by
  have hp := placeBinanceOrder_balance config (env.sell order) order.symbol Side.SELL
    (toFixed order.quantity 6)
  unfold checkTakeProfitStopLoss.step
  repeat' split
  all_goals first | rfl | exact hp _ st

theorem checkTakeProfitStopLoss_balance (config : Config) (env : ExitEnv)
    (st : TradingStatus) : (checkTakeProfitStopLoss config env st).balance = st.balance := by
  unfold checkTakeProfitStopLoss
  generalize st.activeOrders = orders
  induction orders generalizing st with
  | nil => rfl
  | cons o rest ih =>
    rw [List.foldl_cons, ih, checkTakeProfitStopLoss.step_balance]

/-- C18 (as amended): take a table of pairs quoted in BNB (as `BTCBNB`,
`ETHBNB`, `ADABNB`, `DOGEBNB`) and a ledger with non-negative entries.  After
every sequence of `placeBinanceOrder`, `checkOrderStatus` and
`checkTakeProfitStopLoss` steps in which each order that `checkOrderStatus`
applies is an order on a pair of the table that the ledger covers at that
moment (BUY: `quantity ≥ 0` and `quantity * price ≤ balance[quoteAsset]`;
SELL: `quantity * price ≥ 0` and `quantity ≤ balance[baseAsset]`), every entry
is non-negative.  `placeBinanceOrder` and `checkTakeProfitStopLoss` never
change the ledger.  No mutation is rejected: a pending order on a pair of
the table that is answered `FILLED` is moved to `completedOrders` and applied
whether covered or not (a BUY adds `quantity` to `balance[baseAsset]` and
takes `quantity * price` from `balance[quoteAsset]`, a SELL does the
reverse, no other entry changes), and for a non-negative quantity and price
the ledger after it is non-negative exactly when the order was covered. -/
theorem covered_ledger_nonneg (config : Config) (pairs : List (String × String × String))
    (init st : TradingStatus) (hpairs : ∀ pair ∈ pairs, QuotedInBNB pair)
    (h0 : init.balance.NonNeg) (h : CoveredTrace config pairs init st) :
    st.balance.NonNeg ∧
    (∀ reply symbol side quantity price,
      (placeBinanceOrder config reply symbol side quantity price st).balance = st.balance) ∧
    (∀ env, (checkTakeProfitStopLoss config env st).balance = st.balance) ∧
    (∀ reply order pair v, pair ∈ pairs → pair.1 = order.symbol →
      st.activeOrders = [order] → reply order = StatusReply.status true →
      order.status = OrderStatus.ACTIVE → st.balance pair.2.2 = some v →
      (checkOrderStatus reply st).activeOrders = [] ∧
      (checkOrderStatus reply st).completedOrders
        = limitArraySize
            (st.completedOrders ++ [{ order with status := OrderStatus.COMPLETED }]) 100 ∧
      (checkOrderStatus reply st).balance pair.2.2
        = some (match order.side with
            | Side.BUY => v - order.quantity * order.price
            | Side.SELL => v + order.quantity * order.price) ∧
      (checkOrderStatus reply st).balance pair.2.1
        = some (match order.side with
            | Side.BUY => (st.balance pair.2.1).getD 0 + order.quantity
            | Side.SELL => (st.balance pair.2.1).getD 0 - order.quantity) ∧
      (∀ a, a ≠ pair.2.1 → a ≠ pair.2.2 →
        (checkOrderStatus reply st).balance a = st.balance a) ∧
      (0 ≤ order.quantity → 0 ≤ order.price →
        ((checkOrderStatus reply st).balance.NonNeg ↔ Covered pairs st.balance order))) := by
  have hnn : st.balance.NonNeg := by
    induction h with
    | start => exact h0
    | place st reply symbol side quantity price _ ih =>
      rw [placeBinanceOrder_balance]
      exact ih
    | check st reply _ hc ih =>
      exact checkOrderStatus.loop_nonneg pairs hpairs reply _ _ _ _ ih hc
    | exit st env _ ih =>
      rw [checkTakeProfitStopLoss_balance]
      exact ih
  refine ⟨hnn, fun reply symbol side quantity price =>
    placeBinanceOrder_balance config reply symbol side quantity price st,
    fun env => checkTakeProfitStopLoss_balance config env st, ?_⟩
  intro reply order pair v hmem hsym hact hr hst hv
  obtain ⟨e1, e2, e3⟩ := checkOrderStatus_single reply st order hact hr hst
  have hbq : baseQuote order.symbol = (pair.2.1, pair.2.2) := by
    rw [← hsym]
    exact baseQuote_of_quotedInBNB pair (hpairs pair hmem)
  have hne := quotedInBNB_ne pair (hpairs pair hmem)
  refine ⟨e1, e2, ?_, ?_, ?_, ?_⟩
  · rw [e3, applyFill_quote st.balance order _ _ hbq hne, hv]
    cases order.side <;> rfl
  · rw [e3, applyFill_base st.balance order _ _ hbq hne]
  · intro a ha1 ha2
    rw [e3, applyFill_other st.balance order _ _ a hbq ha1 ha2]
  · intro hq hp
    rw [e3]
    exact ⟨covered_of_applyFill_nonneg pairs hpairs _ _ pair v hmem hsym hv hq hp,
      applyFill_nonneg pairs hpairs _ _ hnn⟩

theorem defaultInitialBalance_nonneg : defaultInitialBalance.NonNeg := by
  intro a v h
  unfold defaultInitialBalance at h
  split_ifs at h
  · cases h; norm_num
  · cases h; norm_num

set_option maxRecDepth 100000 in
/-- Counterexample to C18 as stated: from the default ledger (1 BNB, 1000
USDT) a BUY of 1 BTC at 100 BNB is accepted and, once `FILLED`, applied to
the ledger: the order is completed, not rejected, and `BNB` is `-99`. -/
theorem ledger_goes_negative :
    (initialStatus defaultInitialBalance).balance.NonNeg ∧
    Reachable defaultConfig (initialStatus defaultInitialBalance) overdrawnStatus ∧
    overdrawnStatus.completedOrders.map (fun o => (o.symbol, o.side, o.quantity, o.price))
      = [("BTCBNB", Side.BUY, 1, 100)] ∧
    overdrawnStatus.balance "BNB" = some (-99) ∧
    ¬ overdrawnStatus.balance.NonNeg := by
  refine ⟨defaultInitialBalance_nonneg, ?_, by decide!, by decide!, ?_⟩
  · exact Reachable.check _ _ (Reachable.place _ _ _ _ _ _ Reachable.start)
  · intro h
    have h1 : overdrawnStatus.balance "BNB" = some (-99) := by decide!
    have := h "BNB" (-99) h1
    norm_num at this

theorem bnbQuotedPairs_quoted : ∀ pair ∈ bnbQuotedPairs, QuotedInBNB pair := by
  have e : bnbQuotedPairs = [("BTCBNB", "BTC", "BNB"), ("ETHBNB", "ETH", "BNB"),
      ("ADABNB", "ADA", "BNB"), ("DOGEBNB", "DOGE", "BNB")] := by decide!
  rw [e]
  intro pair hp
  simp only [List.mem_cons, List.mem_singleton, List.not_mem_nil, or_false] at hp
  rcases hp with rfl | rfl | rfl | rfl <;> (unfold QuotedInBNB; decide!)

set_option maxRecDepth 100000 in
theorem coveredOrder_covered : Covered bnbQuotedPairs defaultInitialBalance coveredOrder := by
  refine ⟨("BTCBNB", "BTC", "BNB"), by decide!, by decide!, 1, by decide!, ?_⟩
  constructor
  · show (0 : ℚ) ≤ 1 / 100
    norm_num
  · show (1 / 100 : ℚ) * 50 ≤ 1
    norm_num

set_option maxRecDepth 100000 in
theorem coveredStatus_trace :
    CoveredTrace defaultConfig bnbQuotedPairs (initialStatus defaultInitialBalance)
      coveredStatus := by
  refine CoveredTrace.check _ _ (CoveredTrace.place _ _ _ _ _ _ CoveredTrace.start) ?_
  show checkOrderStatus.CoveredRun bnbQuotedPairs allFilled [coveredOrder] defaultInitialBalance
  exact ⟨coveredOrder_covered, trivial⟩

set_option maxRecDepth 100000 in
/-- Witness of C18 (as amended) over the default pairs quoted in BNB: the
covered BUY of 0.01 BTC at 50 BNB leaves a non-negative ledger, and the BUY of
1 BTC at 100 BNB leaves `BNB = 1 - 1 * 100` and a non-negative ledger exactly
if it is covered. -/
theorem covered_ledger_nonneg_witness :
    (∀ pair ∈ bnbQuotedPairs, QuotedInBNB pair) ∧
    (initialStatus defaultInitialBalance).balance.NonNeg ∧
    CoveredTrace defaultConfig bnbQuotedPairs (initialStatus defaultInitialBalance)
      coveredStatus ∧
    coveredStatus.balance.NonNeg ∧
    overdrawnStatus.balance "BNB" = some (1 - 1 * 100) ∧
    (overdrawnStatus.balance.NonNeg
      ↔ Covered bnbQuotedPairs defaultInitialBalance overdrawnOrder) :=
  ⟨bnbQuotedPairs_quoted, defaultInitialBalance_nonneg, coveredStatus_trace,
    (covered_ledger_nonneg defaultConfig bnbQuotedPairs (initialStatus defaultInitialBalance)
      coveredStatus bnbQuotedPairs_quoted defaultInitialBalance_nonneg coveredStatus_trace).1,
    ((covered_ledger_nonneg defaultConfig bnbQuotedPairs (initialStatus defaultInitialBalance)
      (placeBinanceOrder defaultConfig (OrderReply.response (some 1)) "BTCBNB" Side.BUY 1 100
        (initialStatus defaultInitialBalance))
      bnbQuotedPairs_quoted defaultInitialBalance_nonneg
      (CoveredTrace.place _ _ _ _ _ _ CoveredTrace.start)).2.2.2 allFilled overdrawnOrder
        ("BTCBNB", "BTC", "BNB") 1 (by decide!) (by decide!) (by decide!) rfl (by decide!)
        (by decide!)).2.2.1,
    ((covered_ledger_nonneg defaultConfig bnbQuotedPairs (initialStatus defaultInitialBalance)
      (placeBinanceOrder defaultConfig (OrderReply.response (some 1)) "BTCBNB" Side.BUY 1 100
        (initialStatus defaultInitialBalance))
      bnbQuotedPairs_quoted defaultInitialBalance_nonneg
      (CoveredTrace.place _ _ _ _ _ _ CoveredTrace.start)).2.2.2 allFilled overdrawnOrder
        ("BTCBNB", "BTC", "BNB") 1 (by decide!) (by decide!) (by decide!) rfl (by decide!)
        (by decide!)).2.2.2.2.2 (by decide!) (by decide!)⟩

theorem mem_limitArraySize {α : Type} (l : List α) (m : Nat) (x : α)
    (h : x ∈ limitArraySize l m) : x ∈ l := by
  unfold limitArraySize at h
  split_ifs at h
  · unfold slice1 at h
    exact List.mem_of_mem_drop h
  · exact h

theorem checkOrderStatus.loop_completed (reply : Order → StatusReply)
    (pending kept : List Order) (completedOrders : List Order) (balance : Ledger)
    (h : ∀ o ∈ completedOrders, o.status = OrderStatus.COMPLETED) :
    ∀ o ∈ (checkOrderStatus.loop reply pending kept completedOrders balance).2.1,
      o.status = OrderStatus.COMPLETED := by
  induction pending generalizing kept completedOrders balance with
  | nil => simpa [checkOrderStatus.loop] using h
  | cons x rest ih =>
    unfold checkOrderStatus.loop
    cases hr : reply x with
    | failed => exact ih _ _ _ h
    | status filled =>
      by_cases hc : filled = true ∧ x.status ≠ OrderStatus.COMPLETED
      · simp only [hc, and_self, if_true, ne_eq, not_false_eq_true]
        apply ih
        intro o ho
        rcases List.mem_append.mp (mem_limitArraySize _ _ _ ho) with h1 | h1
        · exact h o h1
        · rw [List.mem_singleton.mp h1]
      · simp only [hc, if_false]
        exact ih _ _ _ h

theorem placeBinanceOrder_invariant (config : Config) (reply : OrderReply) (symbol : String)
    (side : Side) (quantity price : ℚ) (st : TradingStatus) (h : StatusInvariant st) :
    StatusInvariant (placeBinanceOrder config reply symbol side quantity price st) := by
  unfold placeBinanceOrder
  cases reply.orderId with
  | none => exact h
  | some n =>
    refine ⟨?_, h.2⟩
    intro o ho
    rcases List.mem_append.mp ho with h1 | h1
    · exact h.1 o h1
    · rw [List.mem_singleton.mp h1]

theorem checkOrderStatus_invariant (reply : Order → StatusReply) (st : TradingStatus)
    (h : StatusInvariant st) : StatusInvariant (checkOrderStatus reply st) := by
  unfold checkOrderStatus
  refine ⟨?_, ?_⟩
  · intro o ho
    simp only [checkOrderStatus.loop_kept, List.nil_append] at ho
    exact h.1 o (List.mem_filter.mp ho).1
  · exact checkOrderStatus.loop_completed reply _ _ _ _ h.2

theorem checkTakeProfitStopLoss.step_invariant (config : Config) (env : ExitEnv)
    (st : TradingStatus) (order : Order) (h : StatusInvariant st) :
    StatusInvariant (checkTakeProfitStopLoss.step config env st order) := by
  have hp := placeBinanceOrder_invariant config (env.sell order) order.symbol Side.SELL
    (toFixed order.quantity 6)
  unfold checkTakeProfitStopLoss.step
  repeat' split
  all_goals first | exact h | exact hp _ st h

theorem checkTakeProfitStopLoss_invariant (config : Config) (env : ExitEnv)
    (st : TradingStatus) (h : StatusInvariant st) :
    StatusInvariant (checkTakeProfitStopLoss config env st) := by
  unfold checkTakeProfitStopLoss
  generalize st.activeOrders = orders
  induction orders generalizing st with
  | nil => exact h
  | cons o rest ih =>
    rw [List.foldl_cons]
    exact ih _ (checkTakeProfitStopLoss.step_invariant config env st o h)

/-- C19: in every state reachable from the initial `tradingStatus` through
`placeBinanceOrder`, `checkOrderStatus` and `checkTakeProfitStopLoss`, every
order in `activeOrders` has status `ACTIVE` (so not `COMPLETED`) and every
order in `completedOrders` has status `COMPLETED`. -/
theorem reachable_status_invariant (config : Config) (initialBalance : Ledger)
    (st : TradingStatus) (h : Reachable config (initialStatus initialBalance) st) :
    (∀ o ∈ st.activeOrders,
      o.status = OrderStatus.ACTIVE ∧ o.status ≠ OrderStatus.COMPLETED) ∧
    (∀ o ∈ st.completedOrders, o.status = OrderStatus.COMPLETED) := by
  have hinv : StatusInvariant st := by
    induction h with
    | start => exact ⟨fun o ho => (by cases ho), fun o ho => (by cases ho)⟩
    | place st reply symbol side quantity price _ ih =>
      exact placeBinanceOrder_invariant config reply symbol side quantity price st ih
    | check st reply _ ih => exact checkOrderStatus_invariant reply st ih
    | exit st env _ ih => exact checkTakeProfitStopLoss_invariant config env st ih
  refine ⟨fun o ho => ⟨hinv.1 o ho, ?_⟩, hinv.2⟩
  rw [hinv.1 o ho]
  decide

/-- Witness of C19: the state after a BUY on `BNBUSDT` was accepted and
observed `FILLED` is reachable. -/
theorem reachable_status_invariant_witness :
    Reachable defaultConfig (initialStatus defaultInitialBalance) bnbusdtFilled ∧
    (∀ o ∈ bnbusdtFilled.activeOrders,
      o.status = OrderStatus.ACTIVE ∧ o.status ≠ OrderStatus.COMPLETED) ∧
    (∀ o ∈ bnbusdtFilled.completedOrders, o.status = OrderStatus.COMPLETED) :=
  ⟨Reachable.check _ _ (Reachable.place _ _ _ _ _ _ Reachable.start),
    reachable_status_invariant defaultConfig defaultInitialBalance bnbusdtFilled
      (Reachable.check _ _ (Reachable.place _ _ _ _ _ _ Reachable.start))⟩
set_option maxRecDepth 100000 in
/-- C20 (defect shown on the scenario): the BUY of 1 at 100 has
`takeProfitPrice = 102.5`; once observed `FILLED` it is in `completedOrders`
and `activeOrders` is empty, so `checkTakeProfitStopLoss` at price 103
places no SELL and leaves `totalProfitLoss = 0`, `profitableTrades = 0`.  The
loop body applied to the filled order would place the SELL and record the
profit 3. -/
theorem lifecycle_exit_never_triggers :
    bnbusdtPlaced.activeOrders.map (fun o => (o.side, o.quantity, o.price, o.takeProfitPrice))
      = [(Side.BUY, 1, 100, some 102.5)] ∧
    bnbusdtFilled.activeOrders = [] ∧
    bnbusdtFilled.completedOrders.map (fun o => (o.id, o.status))
      = [(1, OrderStatus.COMPLETED)] ∧
    (checkTakeProfitStopLoss defaultConfig exitAt103 bnbusdtFilled).activeOrders = [] ∧
    (checkTakeProfitStopLoss defaultConfig exitAt103 bnbusdtFilled).performance
      = { totalTrades := 1, profitableTrades := 0, totalProfitLoss := 0, winRate := 0 } ∧
    (bnbusdtFilled.completedOrders.foldl (checkTakeProfitStopLoss.step defaultConfig exitAt103)
        bnbusdtFilled).performance
      = { totalTrades := 2, profitableTrades := 1, totalProfitLoss := 3, winRate := 50 } := by
  decide!

/-! ## Position lifecycle: order placement, counters, history bound -/

theorem placeBinanceOrder_of_orderId (config : Config) (reply : OrderReply) (symbol : String)
    (side : Side) (quantity price : ℚ) (st : TradingStatus) (n : Nat)
    (h : reply.orderId = some n) :
    placeBinanceOrder config reply symbol side quantity price st
      = { st with
          activeOrders := st.activeOrders
            ++ [placeBinanceOrder.order config n symbol side quantity price]
          performance :=
            { st.performance with totalTrades := st.performance.totalTrades + 1 } } := by
  unfold placeBinanceOrder placeBinanceOrder.order
  rw [h]

theorem placeBinanceOrder_of_no_orderId (config : Config) (reply : OrderReply)
    (symbol : String) (side : Side) (quantity price : ℚ) (st : TradingStatus)
    (h : reply.orderId = none) :
    placeBinanceOrder config reply symbol side quantity price st = st := by
  unfold placeBinanceOrder
  rw [h]

theorem OrderReply.orderId_eq_some (reply : OrderReply) (n : Nat) :
    reply.orderId = some n ↔ reply = OrderReply.response (some n) ∧ n ≠ 0 := by
  unfold OrderReply.orderId
  cases reply with
  | failed => simp
  | response o =>
    cases o with
    | none => simp
    | some m =>
      by_cases hm : m = 0
      · subst hm
        simp
        intro h1
        exact h1.symm
      · simp [hm]
        intro h
        subst h
        exact hm

/-- C21 (as amended): `placeBinanceOrder` changes the trading state if and
only if the response carries a non-zero `orderId` (line 967 tests its
truthiness).  Then exactly one order, `ACTIVE`, with the given symbol, side,
quantity and price, is appended to `activeOrders` and `totalTrades` grows by
exactly 1, everything else staying; otherwise (failed request, no `orderId`,
`orderId` 0) the state is unchanged. -/
theorem placeBinanceOrder_spec (config : Config) (reply : OrderReply) (symbol : String)
    (side : Side) (quantity price : ℚ) (st : TradingStatus) :
    (placeBinanceOrder config reply symbol side quantity price st ≠ st ↔
      ∃ n, n ≠ 0 ∧ reply = OrderReply.response (some n)) ∧
    (∀ n, n ≠ 0 → reply = OrderReply.response (some n) →
      ∃ order,
        (placeBinanceOrder config reply symbol side quantity price st).activeOrders
          = st.activeOrders ++ [order] ∧
        order.id = n ∧ order.status = OrderStatus.ACTIVE ∧ order.symbol = symbol ∧
        order.side = side ∧ order.quantity = quantity ∧ order.price = price ∧
        (placeBinanceOrder config reply symbol side quantity price st).performance
          = { st.performance with totalTrades := st.performance.totalTrades + 1 } ∧
        (placeBinanceOrder config reply symbol side quantity price st).completedOrders
          = st.completedOrders ∧
        (placeBinanceOrder config reply symbol side quantity price st).balance
          = st.balance) ∧
    ((reply = OrderReply.failed ∨ reply = OrderReply.response none ∨
        reply = OrderReply.response (some 0)) →
      placeBinanceOrder config reply symbol side quantity price st = st) := by
  refine ⟨?_, ?_, ?_⟩
  · constructor
    · intro hne
      cases hid : reply.orderId with
      | none => exact absurd (placeBinanceOrder_of_no_orderId _ _ _ _ _ _ _ hid) hne
      | some n =>
        obtain ⟨h1, h2⟩ := (OrderReply.orderId_eq_some reply n).mp hid
        exact ⟨n, h2, h1⟩
    · rintro ⟨n, hn, hr⟩
      have hid : reply.orderId = some n := (OrderReply.orderId_eq_some reply n).mpr ⟨hr, hn⟩
      rw [placeBinanceOrder_of_orderId _ _ _ _ _ _ _ n hid]
      intro heq
      have := congrArg (fun s => s.activeOrders.length) heq
      simp at this
  · intro n hn hr
    have hid : reply.orderId = some n := (OrderReply.orderId_eq_some reply n).mpr ⟨hr, hn⟩
    rw [placeBinanceOrder_of_orderId _ _ _ _ _ _ _ n hid]
    exact ⟨placeBinanceOrder.order config n symbol side quantity price, rfl, rfl, rfl, rfl,
      rfl, rfl, rfl, rfl, rfl, rfl⟩
  · intro h
    apply placeBinanceOrder_of_no_orderId
    rcases h with h | h | h <;> subst h <;> rfl

set_option maxRecDepth 100000 in
/-- Counterexample to C21 as stated: a response that carries `orderId` 0
leaves the state unchanged: no order is appended and `totalTrades` stays 0. -/
theorem placeBinanceOrder_orderId_zero :
    (placeBinanceOrder defaultConfig (OrderReply.response (some 0)) "BNBUSDT" Side.BUY 1 100
      (initialStatus defaultInitialBalance)).activeOrders = [] ∧
    (placeBinanceOrder defaultConfig (OrderReply.response (some 0)) "BNBUSDT" Side.BUY 1 100
      (initialStatus defaultInitialBalance)).performance.totalTrades = 0 ∧
    (placeBinanceOrder defaultConfig (OrderReply.response (some 1)) "BNBUSDT" Side.BUY 1 100
      (initialStatus defaultInitialBalance)).activeOrders.length = 1 := by
  decide!

/-- Witness of C21 (as amended): an accepted BUY with order id 1 and a failed
request, from the initial state. -/
theorem placeBinanceOrder_spec_witness :
    (∃ order,
      (placeBinanceOrder defaultConfig (OrderReply.response (some 1)) "BNBUSDT" Side.BUY 1 100
          (initialStatus defaultInitialBalance)).activeOrders
        = (initialStatus defaultInitialBalance).activeOrders ++ [order] ∧
      order.id = 1 ∧ order.status = OrderStatus.ACTIVE ∧ order.symbol = "BNBUSDT" ∧
      order.side = Side.BUY ∧ order.quantity = 1 ∧ order.price = 100 ∧
      (placeBinanceOrder defaultConfig (OrderReply.response (some 1)) "BNBUSDT" Side.BUY 1 100
          (initialStatus defaultInitialBalance)).performance
        = { (initialStatus defaultInitialBalance).performance with
            totalTrades := (initialStatus defaultInitialBalance).performance.totalTrades + 1 } ∧
      (placeBinanceOrder defaultConfig (OrderReply.response (some 1)) "BNBUSDT" Side.BUY 1 100
          (initialStatus defaultInitialBalance)).completedOrders
        = (initialStatus defaultInitialBalance).completedOrders ∧
      (placeBinanceOrder defaultConfig (OrderReply.response (some 1)) "BNBUSDT" Side.BUY 1 100
          (initialStatus defaultInitialBalance)).balance
        = (initialStatus defaultInitialBalance).balance) ∧
    placeBinanceOrder defaultConfig OrderReply.failed "BNBUSDT" Side.BUY 1 100
        (initialStatus defaultInitialBalance)
      = initialStatus defaultInitialBalance :=
  ⟨(placeBinanceOrder_spec defaultConfig (OrderReply.response (some 1)) "BNBUSDT" Side.BUY 1
      100 (initialStatus defaultInitialBalance)).2.1 1 (by decide) rfl,
   (placeBinanceOrder_spec defaultConfig OrderReply.failed "BNBUSDT" Side.BUY 1 100
      (initialStatus defaultInitialBalance)).2.2 (Or.inl rfl)⟩

theorem checkTakeProfitStopLoss.step_of_active (config : Config) (env : ExitEnv)
    (st : TradingStatus) (order : Order) (h : order.status = OrderStatus.ACTIVE) :
    checkTakeProfitStopLoss.step config env st order = st := by
  unfold checkTakeProfitStopLoss.step
  have hc : ¬ (order.side = Side.BUY ∧ order.status = OrderStatus.COMPLETED) := by
    rw [h]
    intro hcon
    exact absurd hcon.2 (by decide)
  rw [if_neg hc]

theorem foldl_step_of_active (config : Config) (env : ExitEnv) (orders : List Order)
    (st : TradingStatus) (h : ∀ o ∈ orders, o.status = OrderStatus.ACTIVE) :
    orders.foldl (checkTakeProfitStopLoss.step config env) st = st := by
  induction orders generalizing st with
  | nil => rfl
  | cons o rest ih =>
    rw [List.foldl_cons, checkTakeProfitStopLoss.step_of_active config env st o
      (h o (List.mem_cons_self o rest))]
    exact ih st (fun x hx => h x (List.mem_cons_of_mem o hx))

theorem checkTakeProfitStopLoss_of_invariant (config : Config) (env : ExitEnv)
    (st : TradingStatus) (h : StatusInvariant st) :
    checkTakeProfitStopLoss config env st = st :=
  foldl_step_of_active config env st.activeOrders st h.1

/-- In a reachable state the status invariant holds and no exit was ever
recorded. -/
theorem Reachable.invariant_and_counters (config : Config) (initialBalance : Ledger)
    (st : TradingStatus) (h : Reachable config (initialStatus initialBalance) st) :
    StatusInvariant st ∧ st.performance.profitableTrades = 0 ∧
      st.performance.totalProfitLoss = 0 ∧ st.performance.winRate = 0 := by
  induction h with
  | start => exact ⟨⟨fun o ho => (by cases ho), fun o ho => (by cases ho)⟩, rfl, rfl, rfl⟩
  | place st reply symbol side quantity price _ ih =>
    refine ⟨placeBinanceOrder_invariant config reply symbol side quantity price st ih.1, ?_⟩
    unfold placeBinanceOrder
    cases reply.orderId with
    | none => exact ih.2
    | some n => exact ih.2
  | check st reply _ ih =>
    exact ⟨checkOrderStatus_invariant reply st ih.1, ih.2⟩
  | exit st env _ ih =>
    rw [checkTakeProfitStopLoss_of_invariant config env st ih.1]
    exact ih

theorem checkTakeProfitStopLoss.step_of_closes (config : Config) (env : ExitEnv)
    (st : TradingStatus) (order : Order) (x : ℚ)
    (h : checkTakeProfitStopLoss.Closes env order x) :
    ∃ n, (env.sell order).orderId = some n ∧
      checkTakeProfitStopLoss.step config env st order
        = { st with
            activeOrders := st.activeOrders ++ [placeBinanceOrder.order config n order.symbol
              Side.SELL (toFixed order.quantity 6) (toFixed x 8)]
            performance :=
              if x ≥ order.takeProfitPrice.getD 0 then
                { totalTrades := st.performance.totalTrades + 1
                  profitableTrades := st.performance.profitableTrades + 1
                  totalProfitLoss :=
                    st.performance.totalProfitLoss + (x - order.price) * order.quantity
                  winRate := (((st.performance.profitableTrades + 1 : Nat) : ℚ)
                    / ((st.performance.totalTrades + 1 : Nat) : ℚ)) * 100 }
              else
                { totalTrades := st.performance.totalTrades + 1
                  profitableTrades := st.performance.profitableTrades
                  totalProfitLoss :=
                    st.performance.totalProfitLoss - (order.price - x) * order.quantity
                  winRate := ((st.performance.profitableTrades : ℚ)
                    / ((st.performance.totalTrades + 1 : Nat) : ℚ)) * 100 } } := by
  obtain ⟨h1, h2, h3, h4, h5, h6, h7⟩ := h
  obtain ⟨n, hn⟩ := Option.isSome_iff_exists.mp h7
  refine ⟨n, hn, ?_⟩
  have hplace := placeBinanceOrder_of_orderId config (env.sell order) order.symbol Side.SELL
    (toFixed order.quantity 6) (toFixed x 8) st n hn
  unfold checkTakeProfitStopLoss.step
  simp only [h1, h2, and_self, if_true, h3, h4, if_false, h6, h7, hplace]
  by_cases htp : x ≥ order.takeProfitPrice.getD 0
  · simp only [htp, if_true]
  · have hsl : x ≤ order.stopLossPrice.getD 0 := h5.resolve_left htp
    simp only [htp, if_false, hsl, if_true]

set_option maxRecDepth 100000 in
theorem heldOrder_closes : checkTakeProfitStopLoss.Closes exitAt103 heldOrder 103 := by
  unfold checkTakeProfitStopLoss.Closes
  decide!

/-- C22: `winRate` is 0 while `totalTrades = 0` in every reachable state, and
right after the loop body of `checkTakeProfitStopLoss` records a close
`totalTrades` is positive and `winRate` is
`profitableTrades / totalTrades * 100`; with `totalTrades = 4` and
`profitableTrades = 3` that is 75. -/
theorem winRate_spec (config : Config) :
    (∀ (initialBalance : Ledger) (st : TradingStatus),
      Reachable config (initialStatus initialBalance) st →
      st.performance.totalTrades = 0 → st.performance.winRate = 0) ∧
    (∀ (env : ExitEnv) (st : TradingStatus) (order : Order) (x : ℚ),
      checkTakeProfitStopLoss.Closes env order x →
      0 < (checkTakeProfitStopLoss.step config env st order).performance.totalTrades ∧
      (checkTakeProfitStopLoss.step config env st order).performance.winRate
        = ((checkTakeProfitStopLoss.step config env st order).performance.profitableTrades : ℚ)
          / ((checkTakeProfitStopLoss.step config env st order).performance.totalTrades : ℚ)
          * 100 ∧
      ((checkTakeProfitStopLoss.step config env st order).performance.totalTrades = 4 →
        (checkTakeProfitStopLoss.step config env st order).performance.profitableTrades = 3 →
        (checkTakeProfitStopLoss.step config env st order).performance.winRate = 75)) := by
  constructor
  · intro initialBalance st h _
    exact (Reachable.invariant_and_counters config initialBalance st h).2.2.2
  · intro env st order x hc
    obtain ⟨n, -, hstep⟩ := checkTakeProfitStopLoss.step_of_closes config env st order x hc
    have hform : 0 < (checkTakeProfitStopLoss.step config env st order).performance.totalTrades ∧
        (checkTakeProfitStopLoss.step config env st order).performance.winRate
          = ((checkTakeProfitStopLoss.step config env st order).performance.profitableTrades : ℚ)
            / ((checkTakeProfitStopLoss.step config env st order).performance.totalTrades : ℚ)
            * 100 := by
      rw [hstep]
      by_cases htp : x ≥ order.takeProfitPrice.getD 0
      · simp only [htp, if_true]
        exact ⟨Nat.succ_pos _, trivial⟩
      · simp only [htp, if_false]
        exact ⟨Nat.succ_pos _, trivial⟩
    refine ⟨hform.1, hform.2, ?_⟩
    intro h4 h3
    rw [hform.2, h4, h3]
    norm_num

set_option maxRecDepth 100000 in
/-- Witness of C22: the exit of `heldOrder` at 103 from `heldStatus` makes
`totalTrades = 4`, `profitableTrades = 3` and `winRate = 75`. -/
theorem winRate_spec_witness :
    checkTakeProfitStopLoss.Closes exitAt103 heldOrder 103 ∧
    (checkTakeProfitStopLoss.step defaultConfig exitAt103 heldStatus heldOrder).performance
      = { totalTrades := 4, profitableTrades := 3, totalProfitLoss := 8, winRate := 75 } ∧
    (0 < (checkTakeProfitStopLoss.step defaultConfig exitAt103 heldStatus
        heldOrder).performance.totalTrades ∧
      (checkTakeProfitStopLoss.step defaultConfig exitAt103 heldStatus
          heldOrder).performance.winRate
        = ((checkTakeProfitStopLoss.step defaultConfig exitAt103 heldStatus
              heldOrder).performance.profitableTrades : ℚ)
          / ((checkTakeProfitStopLoss.step defaultConfig exitAt103 heldStatus
              heldOrder).performance.totalTrades : ℚ) * 100 ∧
      ((checkTakeProfitStopLoss.step defaultConfig exitAt103 heldStatus
          heldOrder).performance.totalTrades = 4 →
        (checkTakeProfitStopLoss.step defaultConfig exitAt103 heldStatus
          heldOrder).performance.profitableTrades = 3 →
        (checkTakeProfitStopLoss.step defaultConfig exitAt103 heldStatus
          heldOrder).performance.winRate = 75)) :=
  ⟨heldOrder_closes, by decide!,
    (winRate_spec defaultConfig).2 exitAt103 heldStatus heldOrder 103 heldOrder_closes⟩

/-- C23: for a filled BUY order with entry price `e > 0`, quantity `q > 0`
and exit levels `e * (1 + tp / 100)`, `e * (1 - sl / 100)` from positive
percentages, a recorded exit at price `x` adds exactly `(x - e) * q` to
`totalProfitLoss`, and `profitableTrades` grows by 1 when `(x - e) * q > 0`
and stays otherwise. -/
theorem exit_profit_spec (config : Config) (env : ExitEnv) (st : TradingStatus)
    (order : Order) (x : ℚ) (he : 0 < order.price) (hq : 0 < order.quantity)
    (htp : 0 < config.takeProfitPercentage) (hsl : 0 < config.stopLossPercentage)
    (hT : order.takeProfitPrice
      = some (order.price * (1 + config.takeProfitPercentage / 100)))
    (hS : order.stopLossPrice = some (order.price * (1 - config.stopLossPercentage / 100)))
    (hc : checkTakeProfitStopLoss.Closes env order x) :
    (checkTakeProfitStopLoss.step config env st order).performance.totalProfitLoss
      = st.performance.totalProfitLoss + (x - order.price) * order.quantity ∧
    (checkTakeProfitStopLoss.step config env st order).performance.profitableTrades
      = st.performance.profitableTrades
        + (if (x - order.price) * order.quantity > 0 then 1 else 0) := by
  obtain ⟨n, -, hstep⟩ := checkTakeProfitStopLoss.step_of_closes config env st order x hc
  obtain ⟨-, -, -, -, hbranch, -, -⟩ := hc
  rw [hstep]
  rw [hT, hS] at hbranch
  simp only [Option.getD_some] at hbranch
  by_cases h1 : x ≥ order.takeProfitPrice.getD 0
  · have h1' : x ≥ order.price * (1 + config.takeProfitPercentage / 100) := by
      rw [hT] at h1; simpa using h1
    have hgt : x > order.price := by
      have : order.price * (1 + config.takeProfitPercentage / 100) > order.price := by
        have := mul_pos he (div_pos htp (by norm_num : (0 : ℚ) < 100))
        nlinarith
      linarith
    have hpos : (x - order.price) * order.quantity > 0 := mul_pos (by linarith) hq
    simp only [h1, if_true, hpos]
    exact ⟨trivial, trivial⟩
  · have h1' : ¬ x ≥ order.price * (1 + config.takeProfitPercentage / 100) := by
      rw [hT] at h1; simpa using h1
    have h2 : x ≤ order.price * (1 - config.stopLossPercentage / 100) :=
      hbranch.resolve_left h1'
    have hlt : x < order.price := by
      have : order.price * (1 - config.stopLossPercentage / 100) < order.price := by
        have := mul_pos he (div_pos hsl (by norm_num : (0 : ℚ) < 100))
        nlinarith
      linarith
    have hneg : ¬ (x - order.price) * order.quantity > 0 := by
      have : (x - order.price) * order.quantity < 0 :=
        mul_neg_of_neg_of_pos (by linarith) hq
      linarith
    simp only [h1, if_false, hneg, add_zero]
    constructor
    · ring
    · trivial

set_option maxRecDepth 100000 in
/-- Witness of C23: the exit of `heldOrder` (entry 100, quantity 1) at 103
adds 3 to `totalProfitLoss` and 1 to `profitableTrades`. -/
theorem exit_profit_spec_witness :
    (0 < heldOrder.price ∧ 0 < heldOrder.quantity ∧
      0 < defaultConfig.takeProfitPercentage ∧ 0 < defaultConfig.stopLossPercentage) ∧
    (checkTakeProfitStopLoss.step defaultConfig exitAt103 heldStatus
        heldOrder).performance.totalProfitLoss
      = heldStatus.performance.totalProfitLoss + (103 - heldOrder.price) * heldOrder.quantity ∧
    (checkTakeProfitStopLoss.step defaultConfig exitAt103 heldStatus
        heldOrder).performance.profitableTrades
      = heldStatus.performance.profitableTrades
        + (if (103 - heldOrder.price) * heldOrder.quantity > 0 then 1 else 0) :=
  ⟨by decide!,
    exit_profit_spec defaultConfig exitAt103 heldStatus heldOrder 103 (by decide!) (by decide!)
      (by decide!) (by decide!) (by decide!) (by decide!) heldOrder_closes⟩

theorem limitArraySize_eq_drop {α : Type} (a : List α) (m : Nat) :
    limitArraySize a m = a.drop (a.length - min a.length m) := by
  unfold limitArraySize
  by_cases h : a.length > m
  · simp only [h, if_true]
    unfold slice1
    have h1 : ¬ ((a.length : Int) - (m : Int) < 0) := by omega
    simp only [h1, if_false]
    congr 1
    omega
  · simp only [h, if_false]
    have : a.length - min a.length m = 0 := by omega
    rw [this, List.drop_zero]

theorem limitArraySize_length {α : Type} (a : List α) (m : Nat) :
    (limitArraySize a m).length = min a.length m := by
  rw [limitArraySize_eq_drop, List.length_drop]
  omega

theorem checkOrderStatus.loop_completed_length (reply : Order → StatusReply)
    (pending kept completedOrders : List Order) (balance : Ledger)
    (h : completedOrders.length ≤ 100) :
    (checkOrderStatus.loop reply pending kept completedOrders balance).2.1.length ≤ 100 := by
  induction pending generalizing kept completedOrders balance with
  | nil => simpa [checkOrderStatus.loop] using h
  | cons x rest ih =>
    unfold checkOrderStatus.loop
    cases hr : reply x with
    | failed => exact ih _ _ _ h
    | status filled =>
      by_cases hc : filled = true ∧ x.status ≠ OrderStatus.COMPLETED
      · simp only [hc, and_self, if_true, ne_eq, not_false_eq_true]
        apply ih
        rw [limitArraySize_length]
        omega
      · simp only [hc, if_false]
        exact ih _ _ _ h

theorem Reachable.completed_length (config : Config) (initialBalance : Ledger)
    (st : TradingStatus) (h : Reachable config (initialStatus initialBalance) st) :
    st.completedOrders.length ≤ 100 := by
  induction h with
  | start => simp [initialStatus]
  | place st reply symbol side quantity price _ ih =>
    unfold placeBinanceOrder
    cases reply.orderId with
    | none => exact ih
    | some n => exact ih
  | check st reply _ ih =>
    exact checkOrderStatus.loop_completed_length reply _ _ _ _ ih
  | exit st env hst ih =>
    rw [checkTakeProfitStopLoss_of_invariant config env st
      (Reachable.invariant_and_counters config initialBalance st hst).1]
    exact ih

/-- C24: `limitArraySize a m` is the last `min |a| m` elements of `a` in
their order (`a` itself when `|a| ≤ m`): the entries evicted are the oldest,
the result has at most `m` elements and a second application changes
nothing.  With the bound 100 the history after `checkOrderStatus` has at
most 100 entries when it had at most 100 before (so in every reachable
state), and the history written by `saveStatusToFile` has at most 100
entries for every state. -/
theorem limitArraySize_spec {α : Type} (a : List α) (m : Nat) :
    limitArraySize a m = a.drop (a.length - min a.length m) ∧
    (a.length ≤ m → limitArraySize a m = a) ∧
    a = a.take (a.length - min a.length m) ++ limitArraySize a m ∧
    (limitArraySize a m).length = min a.length m ∧
    (limitArraySize a m).length ≤ m ∧
    limitArraySize (limitArraySize a m) m = limitArraySize a m ∧
    (∀ (reply : Order → StatusReply) (st : TradingStatus),
      st.completedOrders.length ≤ 100 →
      (checkOrderStatus reply st).completedOrders.length ≤ 100) ∧
    (∀ (config : Config) (initialBalance : Ledger) (st : TradingStatus),
      Reachable config (initialStatus initialBalance) st →
      st.completedOrders.length ≤ 100) ∧
    (∀ st : TradingStatus,
      (saveStatusToFile.statusToSave st).completedOrders.length ≤ 100) := by
  refine ⟨limitArraySize_eq_drop a m, ?_, ?_, limitArraySize_length a m, ?_, ?_, ?_, ?_, ?_⟩
  · intro h
    unfold limitArraySize
    have : ¬ a.length > m := by omega
    simp only [this, if_false]
  · rw [limitArraySize_eq_drop, List.take_append_drop]
  · rw [limitArraySize_length]
    exact min_le_right _ _
  · have hl := limitArraySize_length a m
    unfold limitArraySize
    by_cases h : a.length > m
    · simp only [h, if_true]
      have h2 : ¬ (slice1 a ((a.length : Int) - (m : Int))).length > m := by
        have := hl
        unfold limitArraySize at this
        simp only [h, if_true] at this
        rw [this]
        omega
      simp only [h2, if_false]
    · simp only [h, if_false]
  · intro reply st h
    exact checkOrderStatus.loop_completed_length reply _ _ _ _ h
  · intro config initialBalance st h
    exact Reachable.completed_length config initialBalance st h
  · intro st
    unfold saveStatusToFile.statusToSave
    simp only
    rw [limitArraySize_length]
    exact min_le_right _ _

set_option maxRecDepth 100000 in
/-- Witness of C24: five entries under the bound 3, and the reachable state
`bnbusdtFilled`. -/
theorem limitArraySize_spec_witness :
    limitArraySize [1, 2, 3, 4, 5] 3 = [3, 4, 5] ∧
    limitArraySize [1, 2, 3, 4, 5] 3 = [1, 2, 3, 4, 5].drop (5 - min 5 3) ∧
    limitArraySize [1, 2] 3 = [1, 2] ∧
    bnbusdtFilled.completedOrders.length ≤ 100 :=
  ⟨by decide, (limitArraySize_spec [1, 2, 3, 4, 5] 3).1,
    (limitArraySize_spec [1, 2] 3).2.1 (by decide),
    (limitArraySize_spec ([] : List Nat) 0).2.2.2.2.2.2.2.1 defaultConfig defaultInitialBalance
      bnbusdtFilled (Reachable.check _ _ (Reachable.place _ _ _ _ _ _ Reachable.start))⟩

/-! ## Request retry -/

/-- The events from attempt `s` up to a last attempt `s + n`. -/
theorem fetchWithRetry.loop_ok {ε ρ : Type} (outcome : Nat → Except ε ρ) (maxRetries : Nat)
    (initialDelay : ℚ) (n : Nat) :
    ∀ (s remaining : Nat) (lastError : Option ε) (response : ρ),
      n < remaining → s + n ≤ maxRetries → outcome (s + n) = Except.ok response →
      (∀ j, s ≤ j → j < s + n → ∃ e, outcome j = Except.error e) →
      fetchWithRetry.loop outcome maxRetries initialDelay remaining s lastError
        = (Except.ok response,
           (List.range' s n).flatMap
              (fun j => [FetchEvent.attempt j,
                FetchEvent.wait (initialDelay * (2 : ℚ) ^ (j - 1))])
            ++ [FetchEvent.attempt (s + n)]) := by
  induction n with
  | zero =>
    intro s remaining lastError response hr _ hok _
    obtain ⟨r, rfl⟩ : ∃ r, remaining = r + 1 := ⟨remaining - 1, by omega⟩
    unfold fetchWithRetry.loop
    rw [Nat.add_zero] at hok
    simp [hok]
  | succ n ih =>
    intro s remaining lastError response hr hle hok hfail
    obtain ⟨r, rfl⟩ : ∃ r, remaining = r + 1 := ⟨remaining - 1, by omega⟩
    obtain ⟨e, he⟩ := hfail s (le_refl s) (by omega)
    have hnext := ih (s + 1) r (some e) response (by omega) (by omega)
      (by rw [← hok]; congr 1; omega) (fun j h1 h2 => hfail j (by omega) (by omega))
    unfold fetchWithRetry.loop
    have hlt : s < maxRetries := by omega
    simp only [he, hlt, if_true, hnext]
    have e1 : s + 1 + n = s + (n + 1) := by omega
    rw [e1]
    simp [List.range'_succ]

theorem fetchWithRetry.loop_error {ε ρ : Type} (outcome : Nat → Except ε ρ)
    (maxRetries : Nat) (initialDelay : ℚ) (n : Nat) :
    ∀ (s : Nat) (lastError : Option ε) (e : ε),
      s + n = maxRetries → outcome maxRetries = Except.error e →
      (∀ j, s ≤ j → j ≤ maxRetries → ∃ e', outcome j = Except.error e') →
      fetchWithRetry.loop outcome maxRetries initialDelay (n + 1) s lastError
        = (Except.error (some e),
           (List.range' s n).flatMap
              (fun j => [FetchEvent.attempt j,
                FetchEvent.wait (initialDelay * (2 : ℚ) ^ (j - 1))])
            ++ [FetchEvent.attempt maxRetries]) := by
  induction n with
  | zero =>
    intro s lastError e hs he _
    rw [Nat.add_zero] at hs
    subst hs
    unfold fetchWithRetry.loop
    simp [he, fetchWithRetry.loop]
  | succ n ih =>
    intro s lastError e hs he hfail
    obtain ⟨e', he'⟩ := hfail s (le_refl s) (by omega)
    have hnext := ih (s + 1) (some e') e (by omega) he
      (fun j h1 h2 => hfail j (by omega) h2)
    unfold fetchWithRetry.loop
    have hlt : s < maxRetries := by omega
    simp only [he', hlt, if_true, hnext]
    simp [List.range'_succ]

/-- C25: for `maxRetries ≥ 1`, `fetchWithRetry` returns the response of the
first successful attempt `a ≤ maxRetries` after attempts `1, …, a` and makes
no further attempt; when all `maxRetries` attempts fail it raises the error
of the last one; each failed attempt `j` but the last possible one is
followed by a wait of exactly `initialDelay * 2 ^ (j - 1)`, and nothing
follows the final failed attempt. -/
theorem fetchWithRetry_spec {ε ρ : Type} (outcome : Nat → Except ε ρ) (maxRetries : Nat)
    (initialDelay : ℚ) (h : 1 ≤ maxRetries) :
    (∀ a response, 1 ≤ a → a ≤ maxRetries → outcome a = Except.ok response →
      (∀ j, 1 ≤ j → j < a → ∃ e, outcome j = Except.error e) →
      fetchWithRetry outcome maxRetries initialDelay
        = (Except.ok response, fetchWithRetry.expectedEvents initialDelay a)) ∧
    (∀ e, outcome maxRetries = Except.error e →
      (∀ j, 1 ≤ j → j ≤ maxRetries → ∃ e', outcome j = Except.error e') →
      fetchWithRetry outcome maxRetries initialDelay
        = (Except.error (some e),
           fetchWithRetry.expectedEvents initialDelay maxRetries)) := by
  constructor
  · intro a response h1 h2 hok hfail
    have := fetchWithRetry.loop_ok outcome maxRetries initialDelay (a - 1) 1 maxRetries none
      response (by omega) (by omega) (by rw [← hok]; congr 1; omega)
      (fun j hj1 hj2 => hfail j hj1 (by omega))
    unfold fetchWithRetry fetchWithRetry.expectedEvents
    have e1 : 1 + (a - 1) = a := by omega
    rw [this, e1]
  · intro e he hfail
    obtain ⟨n, rfl⟩ : ∃ n, maxRetries = n + 1 := ⟨maxRetries - 1, by omega⟩
    have := fetchWithRetry.loop_error outcome (n + 1) initialDelay n 1 none e (by omega) he
      hfail
    unfold fetchWithRetry fetchWithRetry.expectedEvents
    rw [this]
    rfl

theorem failTwiceThenSucceed_fails (j : Nat) (_h1 : 1 ≤ j) (h2 : j < 3) :
    ∃ e, failTwiceThenSucceed j = Except.error e := by
  unfold failTwiceThenSucceed
  exact ⟨j, by simp [h2]⟩

set_option maxRecDepth 100000 in
/-- Witness of C25 with three attempts and a delay of 1000: two failures
then a success, and three failures. -/
theorem fetchWithRetry_spec_witness :
    1 ≤ 3 ∧
    fetchWithRetry failTwiceThenSucceed 3 1000
      = (Except.ok 200, fetchWithRetry.expectedEvents 1000 3) ∧
    fetchWithRetry.expectedEvents 1000 3
      = [FetchEvent.attempt 1, FetchEvent.wait 1000, FetchEvent.attempt 2,
         FetchEvent.wait 2000, FetchEvent.attempt 3] ∧
    fetchWithRetry alwaysFail 3 1000
      = (Except.error (some 3), fetchWithRetry.expectedEvents 1000 3) :=
  ⟨by decide,
    (fetchWithRetry_spec failTwiceThenSucceed 3 1000 (by decide)).1 3 200 (by decide)
      (by decide) rfl failTwiceThenSucceed_fails,
    by decide!,
    (fetchWithRetry_spec alwaysFail 3 1000 (by decide)).2 3 rfl (fun j _ _ => ⟨j, rfl⟩)⟩

/-! ## Volume trend, score ceiling, stochastic row, exit check -/

theorem slice2_neg_neg {α : Type} (l : List α) (p q : Nat) (hq : 0 < q) (hqp : q ≤ p)
    (hp : p ≤ l.length) :
    slice2 l (-(p : Int)) (-(q : Int)) = (l.drop (l.length - p)).take (p - q) := by
  unfold slice2
  have h1 : (-(p : Int)) < 0 := by omega
  have h2 : (-(q : Int)) < 0 := by omega
  simp only [h1, h2, if_true]
  have e1 : (max ((l.length : Int) + -(p : Int)) 0).toNat = l.length - p := by omega
  have e2 : (max ((l.length : Int) + -(q : Int)) 0 - max ((l.length : Int) + -(p : Int)) 0).toNat
      = p - q := by omega
  rw [e1, e2]

theorem analyzeVolume_means (data : List Candle) (h : 10 ≤ data.length) :
    analyzeVolume data
      = { trend := if volumeSpec.recentMean data > volumeSpec.previousMean data
            then VolumeTrend.increasing else VolumeTrend.decreasing
          changePercent := ((volumeSpec.recentMean data - volumeSpec.previousMean data)
            / volumeSpec.previousMean data) * 100 } := by
  have h1 : ¬ data.length < 10 := by omega
  have s1 : slice1 data (-5) = data.drop (data.length - 5) :=
    slice1_neg data 5 (by norm_num)
  have s2 : slice2 data (-10) (-5) = (data.drop (data.length - 10)).take 5 :=
    slice2_neg_neg data 10 5 (by norm_num) (by norm_num) h
  have l1 : ((data.drop (data.length - 5)).map (fun d => d.volume)).length = 5 := by
    simp; omega
  have l2 : (((data.drop (data.length - 10)).take 5).map (fun d => d.volume)).length = 5 := by
    simp; omega
  unfold analyzeVolume volumeSpec.recentMean volumeSpec.previousMean
  simp only [h1, if_false, s1, s2, l1, l2, jsSum_eq_sum, Nat.cast_ofNat]

/-- C27: `analyzeVolume` returns `neutral` with `changePercent` 0 on fewer
than 10 candles; on at least 10 its trend is `increasing` exactly when the
mean volume of the last 5 candles is strictly greater than the mean volume
of the 5 candles before them, and `decreasing` otherwise. -/
theorem analyzeVolume_spec (data : List Candle) :
    (data.length < 10 →
      analyzeVolume data = { trend := VolumeTrend.neutral, changePercent := 0 }) ∧
    (10 ≤ data.length →
      ((analyzeVolume data).trend = VolumeTrend.increasing ↔
        volumeSpec.recentMean data > volumeSpec.previousMean data) ∧
      ((analyzeVolume data).trend = VolumeTrend.decreasing ↔
        ¬ volumeSpec.recentMean data > volumeSpec.previousMean data)) := by
  constructor
  · intro h
    unfold analyzeVolume
    simp only [h, if_true]
  · intro h
    rw [analyzeVolume_means data h]
    by_cases hc : volumeSpec.recentMean data > volumeSpec.previousMean data
    · simp [hc]
    · simp [hc]

set_option maxRecDepth 100000 in
/-- Witness of C27: five candles, and the thirty rising candles (volumes
125, …, 129 against 120, …, 124). -/
theorem analyzeVolume_spec_witness :
    analyzeVolume (risingCandles.take 5)
      = { trend := VolumeTrend.neutral, changePercent := 0 } ∧
    volumeSpec.recentMean risingCandles = 127 ∧ volumeSpec.previousMean risingCandles = 122 ∧
    ((analyzeVolume risingCandles).trend = VolumeTrend.increasing ↔
      volumeSpec.recentMean risingCandles > volumeSpec.previousMean risingCandles) :=
  ⟨(analyzeVolume_spec (risingCandles.take 5)).1 (by decide), by decide!, by decide!,
    ((analyzeVolume_spec risingCandles).2 (by decide)).1⟩

theorem calculateStochastic_k_eq_d (data : List Candle) :
    ∃ r, calculateStochastic data 14 3 3 = some r ∧ r.k = r.d := by
  by_cases h : data.length < 14
  · refine ⟨⟨50, 50⟩, ?_, rfl⟩
    simp [calculateStochastic, h]
  · rw [calculateStochastic_default_eq data (by omega)]
    refine ⟨_, rfl, ?_⟩
    split_ifs <;> rfl

theorem snapshot_fields (mathSqrt : ℚ → ℚ) (data : List Candle) (snap : Snapshot)
    (h : snapshot mathSqrt data = some snap) :
    calculateSMA data 20 = some snap.sma ∧
    snap.bollingerBands = calculateBollingerBands mathSqrt data 20 2 ∧
    calculateStochastic data 14 3 3 = some snap.stochastic ∧
    lastClose data = some snap.currentPrice := by
  unfold snapshot at h
  simp only [Option.bind_eq_some, Option.map_eq_some'] at h
  obtain ⟨sma, hsma, ema9, -, ema21, -, st, hst, price, hprice, hsnap⟩ := h
  subst hsnap
  exact ⟨hsma, rfl, hst, hprice⟩

theorem applyRow_bullishScore (w : ℚ) (bull bear : Prop) [Decidable bull] [Decidable bear]
    (sc : Scores) :
    (applyRow w bull bear sc).bullishScore = sc.bullishScore + (if bull then w else 0) := by
  unfold applyRow
  split_ifs <;> simp

theorem applyRow_bearishScore (w : ℚ) (bull bear : Prop) [Decidable bull] [Decidable bear]
    (sc : Scores) :
    (applyRow w bull bear sc).bearishScore
      = sc.bearishScore + (if bull then 0 else if bear then w else 0) := by
  unfold applyRow
  split_ifs <;> simp

/-- With the stochastic row silent and the volume and Bollinger rows never on
the same side, each score is at most `2 + 3 + 2.5 + 2 = 9.5`. -/
theorem scoreRows_le (s : Snapshot)
    (hk1 : ¬ (s.stochastic.k < 20 ∧ s.stochastic.k > s.stochastic.d))
    (hk2 : ¬ (s.stochastic.k > 80 ∧ s.stochastic.k < s.stochastic.d))
    (hb : ¬ ((s.volume.trend = VolumeTrend.increasing ∧ s.currentPrice > s.sma) ∧
      s.currentPrice < s.bollingerBands.lower))
    (hs : ¬ ((s.volume.trend = VolumeTrend.increasing ∧ s.currentPrice < s.sma) ∧
      s.currentPrice > s.bollingerBands.upper)) :
    (scoreRows s).bullishScore ≤ 9.5 ∧ (scoreRows s).bearishScore ≤ 9.5 := by
  unfold scoreRows
  simp only [applyRow_bullishScore, applyRow_bearishScore, hk1, hk2, if_false]
  constructor
  · by_cases hv : s.volume.trend = VolumeTrend.increasing ∧ s.currentPrice > s.sma
    · have hbo : ¬ s.currentPrice < s.bollingerBands.lower := fun hc => hb ⟨hv, hc⟩
      simp only [hv, hbo, and_self, if_true, if_false]
      split_ifs <;> norm_num
    · simp only [hv, if_false]
      split_ifs <;> norm_num
  · by_cases hv : s.volume.trend = VolumeTrend.increasing ∧ s.currentPrice < s.sma
    · have hbo : ¬ s.currentPrice > s.bollingerBands.upper := fun hc => hs ⟨hv, hc⟩
      simp only [hbo, if_false]
      split_ifs <;> norm_num
    · simp only [hv, if_false]
      split_ifs <;> norm_num

theorem bollinger_around_sma (mathSqrt : ℚ → ℚ) (hsqrt : ∀ x, 0 ≤ x → 0 ≤ mathSqrt x)
    (data : List Candle) (h : 20 ≤ data.length) (sma : ℚ)
    (hsma : calculateSMA data 20 = some sma) :
    (calculateBollingerBands mathSqrt data 20 2).middle = sma ∧
    (calculateBollingerBands mathSqrt data 20 2).lower ≤ sma ∧
    sma ≤ (calculateBollingerBands mathSqrt data 20 2).upper := by
  rw [calculateSMA_eq_mean data 20 h] at hsma
  have hsma' := Option.some.inj hsma
  have h1 : ¬ data.length < 20 := by omega
  have hmid : (calculateBollingerBands mathSqrt data 20 2).middle = sma := by
    unfold calculateBollingerBands
    simp only [h1, if_false]
    rw [slice1_neg data 20 (by norm_num), jsSum_eq_sum]
    exact hsma'
  refine ⟨hmid, ?_, ?_⟩
  · rw [← hmid]
    unfold calculateBollingerBands
    simp only [h1, if_false]
    have hv : 0 ≤ mathSqrt (jsSum (List.map
        (fun price => (price - jsSum (List.map (fun d => d.close)
          (slice1 data (-((20 : Nat) : Int)))) / ((20 : Nat) : ℚ)) ^ 2)
        (List.map (fun d => d.close) (slice1 data (-((20 : Nat) : Int))))) / ((20 : Nat) : ℚ)) := by
      apply hsqrt
      apply div_nonneg _ (by norm_num)
      apply jsSum_nonneg
      intro x hx
      obtain ⟨p, -, rfl⟩ := List.mem_map.mp hx
      exact sq_nonneg _
    linarith
  · rw [← hmid]
    unfold calculateBollingerBands
    simp only [h1, if_false]
    have hv : 0 ≤ mathSqrt (jsSum (List.map
        (fun price => (price - jsSum (List.map (fun d => d.close)
          (slice1 data (-((20 : Nat) : Int)))) / ((20 : Nat) : ℚ)) ^ 2)
        (List.map (fun d => d.close) (slice1 data (-((20 : Nat) : Int))))) / ((20 : Nat) : ℚ)) := by
      apply hsqrt
      apply div_nonneg _ (by norm_num)
      apply jsSum_nonneg
      intro x hx
      obtain ⟨p, -, rfl⟩ := List.mem_map.mp hx
      exact sq_nonneg _
    linarith

theorem snapshot_rows (mathSqrt : ℚ → ℚ) (hsqrt : ∀ x, 0 ≤ x → 0 ≤ mathSqrt x)
    (data : List Candle) (h : 30 ≤ data.length) (snap : Snapshot)
    (hs : snapshot mathSqrt data = some snap) :
    snap.bollingerBands.middle = snap.sma ∧
    ¬ (snap.stochastic.k < 20 ∧ snap.stochastic.k > snap.stochastic.d) ∧
    ¬ (snap.stochastic.k > 80 ∧ snap.stochastic.k < snap.stochastic.d) ∧
    ¬ ((snap.volume.trend = VolumeTrend.increasing ∧ snap.currentPrice > snap.sma) ∧
      snap.currentPrice < snap.bollingerBands.lower) ∧
    ¬ ((snap.volume.trend = VolumeTrend.increasing ∧ snap.currentPrice < snap.sma) ∧
      snap.currentPrice > snap.bollingerBands.upper) := by
  obtain ⟨hsma, hbb, hst, -⟩ := snapshot_fields mathSqrt data snap hs
  obtain ⟨hmid, hlo, hup⟩ := bollinger_around_sma mathSqrt hsqrt data (by omega) snap.sma hsma
  rw [← hbb] at hmid hlo hup
  obtain ⟨r, hr, hkd⟩ := calculateStochastic_k_eq_d data
  rw [hst] at hr
  have hkd' : snap.stochastic.k = snap.stochastic.d := by
    rw [Option.some.inj hr]; exact hkd
  refine ⟨hmid, ?_, ?_, ?_, ?_⟩
  · rintro ⟨-, h2⟩
    rw [hkd'] at h2
    exact lt_irrefl _ h2
  · rintro ⟨-, h2⟩
    rw [hkd'] at h2
    exact lt_irrefl _ h2
  · rintro ⟨⟨-, h1⟩, h2⟩
    linarith
  · rintro ⟨⟨-, h1⟩, h2⟩
    linarith

theorem decision_le (sc : Scores) (b : ℚ) (hw : sc.totalWeight = 13)
    (h1 : sc.bullishScore ≤ b) (h2 : sc.bearishScore ≤ b) (hb : 0 ≤ b) :
    (decision sc).2 ≤ b / 13 * 100 := by
  unfold decision
  rw [hw]
  split_ifs
  · simp only
    have : sc.bullishScore / 13 ≤ b / 13 := div_le_div_of_nonneg_right h1 (by norm_num)
    linarith
  · simp only
    have : sc.bearishScore / 13 ≤ b / 13 := div_le_div_of_nonneg_right h2 (by norm_num)
    linarith
  · simp only
    have : 0 ≤ b / 13 := div_nonneg hb (by norm_num)
    linarith

/-- C28: with a `Math.sqrt` that is non-negative on non-negative arguments,
for every symbol and candle sequence neither score exceeds 9.5 (the
stochastic row never triggers, and the volume row and the Bollinger row
never trigger on the same side, the Bollinger middle being SMA(20) of the
same candles), so the confidence is at most `9.5 / 13 * 100`, strictly
below the default `predictionConfidenceThreshold` 75. -/
theorem confidence_below_threshold (mathSqrt : ℚ → ℚ)
    (hsqrt : ∀ x, 0 ≤ x → 0 ≤ mathSqrt x) (config : Config) (symbol : String)
    (historicalData : Option (List Candle)) :
    (∃ sig, predictPriceMovement mathSqrt config symbol historicalData = some sig ∧
      sig.confidence ≤ 9.5 / 13 * 100 ∧
      sig.confidence < defaultPredictionConfidenceThreshold ∧
      ¬ sig.confidence ≥ defaultPredictionConfidenceThreshold) ∧
    (∀ data, historicalData = some data → 30 ≤ data.length →
      ∃ snap, snapshot mathSqrt data = some snap ∧
        (scoreRows snap).bullishScore ≤ 9.5 ∧ (scoreRows snap).bearishScore ≤ 9.5 ∧
        snap.bollingerBands.middle = snap.sma) := by
  have hlong : ∀ data : List Candle, 30 ≤ data.length →
      ∃ snap, snapshot mathSqrt data = some snap ∧
        (scoreRows snap).bullishScore ≤ 9.5 ∧ (scoreRows snap).bearishScore ≤ 9.5 ∧
        snap.bollingerBands.middle = snap.sma := by
    intro data h
    obtain ⟨snap, hs, -⟩ := snapshot_isSome mathSqrt data h
    obtain ⟨hmid, hk1, hk2, hb, hbe⟩ := snapshot_rows mathSqrt hsqrt data h snap hs
    obtain ⟨h1, h2⟩ := scoreRows_le snap hk1 hk2 hb hbe
    exact ⟨snap, hs, h1, h2, hmid⟩
  have hnum : (9.5 : ℚ) / 13 * 100 < defaultPredictionConfidenceThreshold := by
    unfold defaultPredictionConfidenceThreshold
    norm_num
  have hwrap : ∀ sig : Signal, sig.confidence ≤ 9.5 / 13 * 100 →
      sig.confidence ≤ 9.5 / 13 * 100 ∧
      sig.confidence < defaultPredictionConfidenceThreshold ∧
      ¬ sig.confidence ≥ defaultPredictionConfidenceThreshold := by
    intro sig h
    exact ⟨h, lt_of_le_of_lt h hnum, not_le.mpr (lt_of_le_of_lt h hnum)⟩
  refine ⟨?_, fun data _ h => hlong data h⟩
  cases historicalData with
  | none =>
    exact ⟨⟨Prediction.HOLD, 0, none⟩, rfl, hwrap _ (by norm_num)⟩
  | some data =>
    by_cases h : data.length < 30
    · refine ⟨⟨Prediction.HOLD, 0, none⟩, ?_, hwrap _ (by norm_num)⟩
      simp [predictPriceMovement, h]
    · obtain ⟨snap, hs, h1, h2, -⟩ := hlong data (by omega)
      refine ⟨buildSignal config symbol snap,
        predictPriceMovement_of_snapshot mathSqrt config symbol data (by omega) snap hs,
        hwrap _ ?_⟩
      exact decision_le (scoreRows snap) 9.5 (scoreRows_totalWeight snap) h1 h2 (by norm_num)

/-- Witness of C28 on the thirty rising candles with the executable square
root. -/
theorem confidence_below_threshold_witness :
    (∀ x, 0 ≤ x → 0 ≤ sqrtApprox x) ∧
    ∃ sig, predictPriceMovement sqrtApprox defaultConfig "BNBUSDT" (some risingCandles)
        = some sig ∧
      sig.confidence ≤ 9.5 / 13 * 100 ∧
      sig.confidence < defaultPredictionConfidenceThreshold ∧
      ¬ sig.confidence ≥ defaultPredictionConfidenceThreshold :=
  ⟨fun x _ => sqrtApprox_nonneg x,
    (confidence_below_threshold sqrtApprox (fun x _ => sqrtApprox_nonneg x) defaultConfig
      "BNBUSDT" (some risingCandles)).1⟩

/-- C29: `calculateStochastic` with period 14 and `smoothK = smoothD = 3`
returns `k = d` on every candle sequence, so on at least 30 candles neither
condition of the stochastic row of `predictPriceMovement` holds and the row
leaves `bullishScore` and `bearishScore` as they are. -/
theorem stochastic_row_silent (mathSqrt : ℚ → ℚ) (data : List Candle) :
    (∃ r, calculateStochastic data 14 3 3 = some r ∧ r.k = r.d) ∧
    (30 ≤ data.length →
      ∃ snap, snapshot mathSqrt data = some snap ∧
        snap.stochastic.k = snap.stochastic.d ∧
        ¬ (snap.stochastic.k < 20 ∧ snap.stochastic.k > snap.stochastic.d) ∧
        ¬ (snap.stochastic.k > 80 ∧ snap.stochastic.k < snap.stochastic.d) ∧
        ∀ sc : Scores,
          (applyRow 2 (snap.stochastic.k < 20 ∧ snap.stochastic.k > snap.stochastic.d)
            (snap.stochastic.k > 80 ∧ snap.stochastic.k < snap.stochastic.d) sc).bullishScore
              = sc.bullishScore ∧
          (applyRow 2 (snap.stochastic.k < 20 ∧ snap.stochastic.k > snap.stochastic.d)
            (snap.stochastic.k > 80 ∧ snap.stochastic.k < snap.stochastic.d) sc).bearishScore
              = sc.bearishScore) := by
  refine ⟨calculateStochastic_k_eq_d data, ?_⟩
  intro h
  obtain ⟨snap, hs, -⟩ := snapshot_isSome mathSqrt data h
  obtain ⟨-, -, hst, -⟩ := snapshot_fields mathSqrt data snap hs
  obtain ⟨r, hr, hkd⟩ := calculateStochastic_k_eq_d data
  rw [hst] at hr
  have hkd' : snap.stochastic.k = snap.stochastic.d := by
    rw [Option.some.inj hr]; exact hkd
  have hk1 : ¬ (snap.stochastic.k < 20 ∧ snap.stochastic.k > snap.stochastic.d) := by
    rintro ⟨-, h2⟩
    rw [hkd'] at h2
    exact lt_irrefl _ h2
  have hk2 : ¬ (snap.stochastic.k > 80 ∧ snap.stochastic.k < snap.stochastic.d) := by
    rintro ⟨-, h2⟩
    rw [hkd'] at h2
    exact lt_irrefl _ h2
  refine ⟨snap, hs, hkd', hk1, hk2, fun sc => ?_⟩
  rw [applyRow_bullishScore, applyRow_bearishScore]
  simp only [hk1, hk2, if_false, add_zero, and_self]

/-- Witness of C29 on the thirty rising candles. -/
theorem stochastic_row_silent_witness :
    30 ≤ risingCandles.length ∧
    ∃ snap, snapshot sqrtApprox risingCandles = some snap ∧
      snap.stochastic.k = snap.stochastic.d ∧
      ¬ (snap.stochastic.k < 20 ∧ snap.stochastic.k > snap.stochastic.d) ∧
      ¬ (snap.stochastic.k > 80 ∧ snap.stochastic.k < snap.stochastic.d) ∧
      ∀ sc : Scores,
        (applyRow 2 (snap.stochastic.k < 20 ∧ snap.stochastic.k > snap.stochastic.d)
          (snap.stochastic.k > 80 ∧ snap.stochastic.k < snap.stochastic.d) sc).bullishScore
            = sc.bullishScore ∧
        (applyRow 2 (snap.stochastic.k < 20 ∧ snap.stochastic.k > snap.stochastic.d)
          (snap.stochastic.k > 80 ∧ snap.stochastic.k < snap.stochastic.d) sc).bearishScore
            = sc.bearishScore :=
  ⟨by decide, (stochastic_row_silent sqrtApprox risingCandles).2 (by decide)⟩

/-- C30: in every state reachable from the initial `tradingStatus` (through
`placeBinanceOrder` and `checkOrderStatus`, and through
`checkTakeProfitStopLoss` itself), no order in `activeOrders` is a BUY with
status `COMPLETED`, so `checkTakeProfitStopLoss` leaves the state as it is
whatever the exchange answers: no exit SELL is placed and `profitableTrades`,
`totalProfitLoss` and `winRate` keep their initial value 0. -/
theorem checkTakeProfitStopLoss_never_fires (config : Config) (initialBalance : Ledger)
    (st : TradingStatus) (h : Reachable config (initialStatus initialBalance) st) :
    (∀ o ∈ st.activeOrders, ¬ (o.side = Side.BUY ∧ o.status = OrderStatus.COMPLETED)) ∧
    (∀ env : ExitEnv, checkTakeProfitStopLoss config env st = st) ∧
    st.performance.profitableTrades = 0 ∧ st.performance.totalProfitLoss = 0 ∧
    st.performance.winRate = 0 := by
  obtain ⟨hinv, hc⟩ := Reachable.invariant_and_counters config initialBalance st h
  refine ⟨?_, fun env => checkTakeProfitStopLoss_of_invariant config env st hinv, hc⟩
  intro o ho hcon
  rw [hinv.1 o ho] at hcon
  exact absurd hcon.2 (by decide)

/-- Witness of C30: the reachable state `bnbusdtFilled` under the exchange
answers of the lifecycle scenario. -/
theorem checkTakeProfitStopLoss_never_fires_witness :
    Reachable defaultConfig (initialStatus defaultInitialBalance) bnbusdtFilled ∧
    checkTakeProfitStopLoss defaultConfig exitAt103 bnbusdtFilled = bnbusdtFilled ∧
    bnbusdtFilled.performance.profitableTrades = 0 :=
  ⟨Reachable.check _ _ (Reachable.place _ _ _ _ _ _ Reachable.start),
    (checkTakeProfitStopLoss_never_fires defaultConfig defaultInitialBalance bnbusdtFilled
      (Reachable.check _ _ (Reachable.place _ _ _ _ _ _ Reachable.start))).2.1 exitAt103,
    (checkTakeProfitStopLoss_never_fires defaultConfig defaultInitialBalance bnbusdtFilled
      (Reachable.check _ _ (Reachable.place _ _ _ _ _ _ Reachable.start))).2.2.1⟩

end TradingBot
